import Mathlib

/-!
Shallow embedding of the rendermaid layout and edge-routing engine
(`src/lib/renderers.ts`), together with proofs settling the frozen claims
about it.

Modelling conventions:
* JavaScript numbers are modelled as exact rationals (`ℚ`).  Every arithmetic
  operation the engine performs on layout data is `+ - * / max min abs`, which
  are exact on rationals.  `Math.sqrt` (used only for circle radii and
  point-to-segment distances) is modelled by `ratSqrt`, a monotone,
  nonnegative fixed-precision rational square-root approximation; no claim in
  this development depends on the exact rounding of square roots.
* `ReadonlyMap` values are modelled as insertion-ordered association lists
  (`List (key × value)`); `Map.get` is the first matching entry, `Map.set`
  replaces in place or appends, and iteration order is list order — the same
  observable behaviour as a JS `Map`.  The repository only ever keys the node
  map by `node.id` (`addNode`/`createNode`), so the node map is modelled as a
  `List MermaidNode` looked up by `id`; the `Map`'s key-uniqueness invariant
  becomes the hypothesis `(nodes.map (·.id)).Nodup` where a theorem needs it.
* `node.metadata` / `edge.metadata` (type `unknown`, never read by layout or
  routing) are omitted from the record models.
* The two `while` loops of the engine (BFS layering and the collision retry
  loop) are modelled with explicit fuel.  The retry loop's fuel is the
  source's own `MAX_COLLISION_RETRIES`.  For the BFS loop the fuel
  `nodes.length + edges.length + 1` dominates the real iteration count:
  every outer iteration pops at least one queue entry and the total number of
  enqueues is bounded by `nodes.length` seeds plus one push per edge.
-/

namespace Rendermaid

/-! ## Numeric constants (`LAYOUT` and `RENDERING` constant groups) -/

def LAYOUT_MIN_NODE_GAP : ℚ := 40
def LAYOUT_INITIAL_LAYER_OFFSET : ℚ := 60
def LAYOUT_CANVAS_PADDING : ℚ := 60
def LAYOUT_LAYER_SPACING_MULTIPLIER : ℚ := 1.5

def RENDERING_NODE_TEXT_PADDING : ℚ := 16
def RENDERING_NODE_FONT_SIZE : ℚ := 12
def RENDERING_MIN_NODE_WIDTH : ℚ := 60
def RENDERING_MIN_NODE_HEIGHT : ℚ := 30
def RENDERING_COLLISION_PADDING : ℚ := 15
def RENDERING_COLLISION_AVOIDANCE_OFFSET : ℚ := 40
def RENDERING_PORT_OFFSET : ℚ := 2
def RENDERING_MAX_COLLISION_RETRIES : ℕ := 3

/-! ## Square root model

`Math.sqrt` on IEEE doubles, modelled as `⌊sqrt (q·D²)⌋ / D` for the fixed
denominator `D = 2^26` (half the double mantissa width): a computable,
monotone, nonnegative approximation of the exact square root. -/

def SQRT_DEN : ℕ := 2 ^ 26

def ratSqrt (q : ℚ) : ℚ :=
  (Nat.sqrt (⌊q * (SQRT_DEN : ℚ) ^ 2⌋).toNat : ℚ) / (SQRT_DEN : ℚ)

theorem ratSqrt_nonneg (q : ℚ) : 0 ≤ ratSqrt q := by
  unfold ratSqrt
  positivity

theorem ratSqrt_mono {q q' : ℚ} (h : q ≤ q') : ratSqrt q ≤ ratSqrt q' := by
  unfold ratSqrt
  have hfloor : (⌊q * (SQRT_DEN : ℚ) ^ 2⌋).toNat ≤ (⌊q' * (SQRT_DEN : ℚ) ^ 2⌋).toNat := by
    refine Int.toNat_le_toNat (Int.floor_le_floor ?_)
    have hsq : (0 : ℚ) ≤ (SQRT_DEN : ℚ) ^ 2 := by positivity
    exact mul_le_mul_of_nonneg_right h hsq
  have hsqrt : Nat.sqrt (⌊q * (SQRT_DEN : ℚ) ^ 2⌋).toNat
      ≤ Nat.sqrt (⌊q' * (SQRT_DEN : ℚ) ^ 2⌋).toNat := Nat.sqrt_le_sqrt hfloor
  have hD : (0 : ℚ) ≤ (SQRT_DEN : ℚ) := by positivity
  exact div_le_div_of_nonneg_right (by exact_mod_cast hsqrt) hD

/-! ## Text measurement (`estimateTextWidth`) -/

def estimateTextWidth (text : String) (fontSize : ℚ := 12) : ℚ :=
  (text.length : ℚ) * fontSize * 0.6

/-! ## Node geometry (`calculateNodeDimensions`) -/

structure Dimensions where
  width : ℚ
  height : ℚ
  radius : Option ℚ := none
deriving DecidableEq, Repr

/-- Dimension computation of `calculateNodeDimensions`: the empty-string test
models JS `if (!label)` (the empty string is falsy), and the `switch (shape)`
is modelled by a chain of string comparisons ending in the `default` arm. -/
def calculateNodeDimensions (label : String) (shape : String) : Dimensions :=
  if label = "" then
    if shape = "circle" then
      { width := RENDERING_MIN_NODE_WIDTH, height := RENDERING_MIN_NODE_WIDTH,
        radius := some (RENDERING_MIN_NODE_WIDTH / 2) }
    else if shape = "rhombus" then { width := 80, height := 40 }
    else if shape = "stadium" then { width := 100, height := 40 }
    else if shape = "hexagon" then { width := 90, height := 40 }
    else { width := 80, height := 40 }
  else
    let fontSize := RENDERING_NODE_FONT_SIZE
    let padding := RENDERING_NODE_TEXT_PADDING
    let minWidth := RENDERING_MIN_NODE_WIDTH
    let minHeight := RENDERING_MIN_NODE_HEIGHT
    let textWidth := estimateTextWidth label fontSize
    let requiredWidth := max minWidth (textWidth + padding)
    if shape = "circle" then
      let radius := max 25 (ratSqrt (requiredWidth * requiredWidth + minHeight * minHeight) / 2 + 5)
      { width := radius * 2, height := radius * 2, radius := some radius }
    else if shape = "rhombus" then
      { width := max 80 (requiredWidth * 1.4), height := max 40 (minHeight + 10) }
    else if shape = "stadium" then
      { width := max 100 (requiredWidth + 20), height := max 40 (minHeight + 10) }
    else
      { width := max minWidth requiredWidth, height := max minHeight (minHeight + 10) }

/-! ## Data model (`parser.ts` types, restricted to the fields layout reads) -/

structure MermaidNode where
  id : String
  label : String
  shape : String
deriving DecidableEq, Repr

/-- Edge record; `fromId`/`toId` model the source's `from`/`to` fields
(`from` is a Lean keyword). -/
structure MermaidEdge where
  fromId : String
  toId : String
  label : Option String := none
  type : String := "arrow"
deriving DecidableEq, Repr

inductive DiagramType where
  | flowchart (direction : String)
  | sequence (participants : List String)
  | gantt (title : Option String)
  | classDiagram
  | stateDiagram
deriving DecidableEq, Repr

structure MermaidAST where
  diagramType : DiagramType
  nodes : List MermaidNode
  edges : List MermaidEdge
deriving DecidableEq, Repr

structure SvgConfig where
  width : ℚ
  height : ℚ
  nodeSpacing : ℚ
  theme : String
deriving DecidableEq, Repr

structure Position where
  x : ℚ
  y : ℚ
deriving DecidableEq, Repr

structure LayoutResult where
  layout : List (String × Position)
  canvasWidth : ℚ
  canvasHeight : ℚ
deriving DecidableEq, Repr

/-- Flow direction used by layout and routing:
`ast.diagramType.type === "flowchart" ? ast.diagramType.direction : "TD"`. -/
def astDirection (ast : MermaidAST) : String :=
  match ast.diagramType with
  | .flowchart d => d
  | _ => "TD"

/-! ## Association-list model of JS `Map` -/

def alGet {κ α : Type} [DecidableEq κ] (m : List (κ × α)) (k : κ) : Option α :=
  (m.find? (fun p => decide (p.1 = k))).map (·.2)

/-- `Map.set`: replace the entry in place if the key is present, else append. -/
def alSet {κ α : Type} [DecidableEq κ] (m : List (κ × α)) (k : κ) (v : α) : List (κ × α) :=
  if (m.find? (fun p => decide (p.1 = k))).isSome then
    m.map (fun p => if p.1 = k then (k, v) else p)
  else m ++ [(k, v)]

/-- JS `stringMap.get(k) || fallback`: `undefined` and the empty string are
both falsy. -/
def jsStringOr (v : Option String) (fallback : String) : String :=
  match v with
  | some s => if s = "" then fallback else s
  | none => fallback

/-! ## Layer assignment (BFS block of `optimizedCalculateLayout`) -/

/-- In-degree map: every node id starts at 0, then each edge increments its
target (`inDegree.get(edge.to) || 0) + 1` — targets absent from the node map
also acquire an entry). -/
def initialInDegree (nodes : List MermaidNode) (edges : List MermaidEdge) :
    List (String × ℕ) :=
  edges.foldl (fun m e => alSet m e.toId ((alGet m e.toId).getD 0 + 1))
    (nodes.foldl (fun m n => alSet m n.id 0) [])

/-- Successor map: each edge appends its target to its source's list;
`outNodes.get(edge.from)?.push(edge.to)` is a no-op when the source id is not
a node. -/
def outNodesMap (nodes : List MermaidNode) (edges : List MermaidEdge) :
    List (String × List String) :=
  edges.foldl (fun m e =>
      match alGet m e.fromId with
      | some l => alSet m e.fromId (l ++ [e.toId])
      | none => m)
    (nodes.foldl (fun m n => alSet m n.id []) [])

structure BfsSt where
  queue : List String
  visited : List String
  inDegree : List (String × ℕ)

/-- Processing of one successor of a dequeued node: decrement its in-degree
(`(inDegree.get(childId) || 1) - 1`: a missing entry and a stored `0` are
both falsy, hence both give `1 - 1 = 0`) and enqueue it when the new
in-degree is 0 and it is unvisited. -/
def childStep (s : BfsSt) (childId : String) : BfsSt :=
  let v0 := (alGet s.inDegree childId).getD 0
  let newInDegree := (if v0 = 0 then 1 else v0) - 1
  let s' : BfsSt := { s with inDegree := alSet s.inDegree childId newInDegree }
  if newInDegree = 0 ∧ childId ∉ s'.visited then
    { s' with queue := s'.queue ++ [childId] }
  else s'

/-- Child processing of one dequeued node
(`outNodes.get(nodeId)?.forEach(childId => ...)`). -/
def processChildren (outN : List (String × List String)) (st : BfsSt)
    (nodeId : String) : BfsSt :=
  ((alGet outN nodeId).getD []).foldl childStep st

/-- One round of the BFS loop: dequeue exactly `k` entries (the queue length
at round start), skipping already-visited ids and collecting the rest as the
current layer. -/
def bfsRound (outN : List (String × List String)) :
    ℕ → BfsSt → List String → BfsSt × List String
  | 0, st, layer => (st, layer)
  | k + 1, st, layer =>
    match st.queue with
    | [] => (st, layer)
    | nodeId :: rest =>
      let st1 : BfsSt := { st with queue := rest }
      if nodeId ∈ st1.visited then bfsRound outN k st1 layer
      else
        let st2 : BfsSt := { st1 with visited := st1.visited ++ [nodeId] }
        let st3 := processChildren outN st2 nodeId
        bfsRound outN k st3 (layer ++ [nodeId])

/-- The outer `while (queue.length > 0)` loop, with fuel: rounds accumulate
nonempty layers. -/
def bfsLoop (outN : List (String × List String)) :
    ℕ → BfsSt → List (List String) → List (List String) × List String
  | 0, st, layers => (layers, st.visited)
  | fuel + 1, st, layers =>
    if st.queue = [] then (layers, st.visited)
    else
      let r := bfsRound outN st.queue.length st []
      let layers' := if r.2 = [] then layers else layers ++ [r.2]
      bfsLoop outN fuel r.1 layers'

/-- Initial queue: all zero-in-degree nodes, or the first node when there is
none (`if (queue.length === 0 && nodes.length > 0) queue.push(nodes[0].id)`). -/
def assignLayersQueue (nodes : List MermaidNode) (edges : List MermaidEdge) :
    List String :=
  let seeds := (nodes.filter (fun n => alGet (initialInDegree nodes edges) n.id = some 0)).map (·.id)
  if seeds = [] then
    match nodes with
    | n :: _ => [n.id]
    | [] => []
  else seeds

/-- The BFS rounds: produced layers and final visited list. -/
def assignLayersBfs (nodes : List MermaidNode) (edges : List MermaidEdge) :
    List (List String) × List String :=
  bfsLoop (outNodesMap nodes edges) (nodes.length + edges.length + 1)
    ⟨assignLayersQueue nodes edges, [], initialInDegree nodes edges⟩ []

/-- Layer assignment: seed with zero-in-degree nodes (or the first node when
there is none), run the BFS rounds, then append all unvisited nodes as one
catch-all layer. -/
def assignLayers (nodes : List MermaidNode) (edges : List MermaidEdge) :
    List (List String) :=
  let layers := (assignLayersBfs nodes edges).1
  let visited := (assignLayersBfs nodes edges).2
  let remaining := (nodes.filter (fun n => n.id ∉ visited)).map (·.id)
  if remaining = [] then layers else layers ++ [remaining]

/-! ## Axis placement (positioning block of `optimizedCalculateLayout`) -/

/-- The `axis.layerDim` selector: the dimension measured along the
layer-advance axis. -/
def axisLayerDim (isHorizontal : Bool) (d : Dimensions) : ℚ :=
  if isHorizontal then d.width else d.height

/-- The `axis.nodeDim` selector: the dimension measured along the spread
axis. -/
def axisNodeDim (isHorizontal : Bool) (d : Dimensions) : ℚ :=
  if isHorizontal then d.height else d.width

/-- The spread-axis coordinate of a position (`y` for horizontal flow, `x`
for vertical flow). -/
def spreadCoord (isHorizontal : Bool) (p : Position) : ℚ :=
  if isHorizontal then p.y else p.x

/-- Cumulative spread-axis offset of the `i`-th node of a layer, mirroring the
`offsets` loop: `offsets[0] = 0` and
`offsets[i] = offsets[i-1] + max(nodeSpacing, prev/2 + minGap + cur/2)`. -/
def layerOffsetAt (dims : String → Dimensions) (isHorizontal : Bool)
    (spacing : ℚ) (layer : List String) : ℕ → ℚ
  | 0 => 0
  | i + 1 =>
    let prevDim := axisNodeDim isHorizontal (dims (layer.getD i ""))
    let curDim := axisNodeDim isHorizontal (dims (layer.getD (i + 1) ""))
    layerOffsetAt dims isHorizontal spacing layer i +
      max spacing (prevDim / 2 + LAYOUT_MIN_NODE_GAP + curDim / 2)

/-- Largest layer-axis dimension within a layer (`maxLayerSize`). -/
def layerMaxSize (dims : String → Dimensions) (isHorizontal : Bool)
    (layer : List String) : ℚ :=
  layer.foldl (fun m nodeId => max m (axisLayerDim isHorizontal (dims nodeId))) 0

/-- `offsets[offsets.length - 1]`: the total spread-axis span of a layer. -/
def layerTotalSpan (dims : String → Dimensions) (isHorizontal : Bool)
    (spacing : ℚ) (layer : List String) : ℚ :=
  layerOffsetAt dims isHorizontal spacing layer (layer.length - 1)

/-- `startNode`: the layer is centered on the canvas spread-axis center. -/
def layerStartNode (dims : String → Dimensions) (isHorizontal : Bool)
    (width height spacing : ℚ) (layer : List String) : ℚ :=
  (if isHorizontal then height / 2 else width / 2) -
    layerTotalSpan dims isHorizontal spacing layer / 2

/-- The `(id, position)` pairs inserted by the inner placement loop
`for i in 0..layer.length: layout.set(layer[i], pos(i))`. -/
def layerEntries (dims : String → Dimensions) (isHorizontal : Bool)
    (width height spacing layerCoord : ℚ) (layer : List String) :
    List (String × Position) :=
  (List.range layer.length).map (fun i =>
    let nodeCoord := layerStartNode dims isHorizontal width height spacing layer +
      layerOffsetAt dims isHorizontal spacing layer i
    (layer.getD i "",
     if isHorizontal then Position.mk layerCoord nodeCoord
     else Position.mk nodeCoord layerCoord))

/-- Mutable state of the positioning loop. -/
structure PlaceSt where
  layout : List (String × Position)
  maxX : ℚ
  maxY : ℚ
  layerOffset : ℚ

/-- One iteration of the per-layer positioning loop.  The source's single
`for` loop both inserts each position into the layout map and folds the
running `maxX`/`maxY` maxima; here the layer's entries are materialised as
`layerEntries` and the same maxima are folded over them, in the same order
with the same values.  `layout.set` appends because every placed id is fresh
(ids occur at most once across layers, see `assignLayers_flatten_nodup`).
The `rest` argument carries the lookahead `layers[li + 1]` used to advance
`layerOffset`. -/
def placeStep (dims : String → Dimensions) (isHorizontal : Bool)
    (width height spacing : ℚ) (layer : List String) (rest : List (List String))
    (st : PlaceSt) : PlaceSt :=
  let maxLayerSize := layerMaxSize dims isHorizontal layer
  let layerCoord := st.layerOffset + maxLayerSize / 2
  let entries := layerEntries dims isHorizontal width height spacing layerCoord layer
  let maxX' := entries.foldl (fun m e =>
    if isHorizontal then max m (e.2.x + maxLayerSize / 2 + LAYOUT_MIN_NODE_GAP)
    else max m (e.2.x + LAYOUT_CANVAS_PADDING)) st.maxX
  let maxY' := entries.foldl (fun m e => max m (e.2.y + LAYOUT_CANVAS_PADDING)) st.maxY
  let layerOffset' :=
    match rest with
    | [] => st.layerOffset
    | next :: _ =>
      let nextMaxSize := layerMaxSize dims isHorizontal next
      layerCoord + max (spacing * LAYOUT_LAYER_SPACING_MULTIPLIER)
        (maxLayerSize / 2 + LAYOUT_MIN_NODE_GAP + nextMaxSize / 2)
  ⟨st.layout ++ entries, maxX', maxY', layerOffset'⟩

/-- The `for (li in 0..layers.length)` positioning loop. -/
def placeLayers (dims : String → Dimensions) (isHorizontal : Bool)
    (width height spacing : ℚ) : List (List String) → PlaceSt → PlaceSt
  | [], st => st
  | layer :: rest, st =>
    placeLayers dims isHorizontal width height spacing rest
      (placeStep dims isHorizontal width height spacing layer rest st)

/-- Per-node dimension lookup
(`calculateNodeDimensions(node?.label ?? "", node?.shape ?? "rectangle")`). -/
def nodeDimsOf (nodes : List MermaidNode) (nodeId : String) : Dimensions :=
  match nodes.find? (fun n => decide (n.id = nodeId)) with
  | some node => calculateNodeDimensions node.label node.shape
  | none => calculateNodeDimensions "" "rectangle"

/-- Direction test of the positioning block:
`direction === "LR" || direction === "RL"`. -/
def directionIsHorizontal (direction : String) : Bool :=
  direction = "LR" ∨ direction = "RL"

/-- The cache-free layout computation of `optimizedCalculateLayout`, as a
function of exactly the data it reads: the node list, the edge list, the
direction string and the three numeric config fields. -/
def calculateLayoutCore (nodes : List MermaidNode) (edges : List MermaidEdge)
    (direction : String) (width height nodeSpacing : ℚ) : LayoutResult :=
  if nodes = [] then { layout := [], canvasWidth := width, canvasHeight := height }
  else
    let isHorizontal := directionIsHorizontal direction
    let layers := assignLayers nodes edges
    let st := placeLayers (nodeDimsOf nodes) isHorizontal width height nodeSpacing
      layers ⟨[], width, height, LAYOUT_INITIAL_LAYER_OFFSET⟩
    { layout := st.layout, canvasWidth := max width st.maxX,
      canvasHeight := max height st.maxY }

/-- Fresh (cache-free) layout of an AST. -/
def calculateLayoutFresh (ast : MermaidAST) (config : SvgConfig) : LayoutResult :=
  calculateLayoutCore ast.nodes ast.edges (astDirection ast)
    config.width config.height config.nodeSpacing

/-! ## Layout cache -/

/-- Content-based cache key
`` `${direction}-${nodeKey}-${edgeKey}-${config.nodeSpacing}` `` modelled as
the tuple of its components: direction, the sorted node-id list, the
`from->to` pair list, and the spacing. -/
abbrev LayoutCacheKey := String × List String × List (String × String) × ℚ

abbrev LayoutCache := List (LayoutCacheKey × LayoutResult)

def cacheKeyOf (ast : MermaidAST) (config : SvgConfig) : LayoutCacheKey :=
  (astDirection ast,
   List.insertionSort (· ≤ ·) (ast.nodes.map (·.id)),
   ast.edges.map (fun e => (e.fromId, e.toId)),
   config.nodeSpacing)

/-- `optimizedCalculateLayout` with the module-level `layoutCache` made an
explicit parameter: return the cached entry when the key hits, otherwise
compute freshly and (except for the empty diagram, which returns before the
cache write) store the result. -/
def optimizedCalculateLayout (ast : MermaidAST) (config : SvgConfig)
    (cache : LayoutCache) : LayoutResult × LayoutCache :=
  let cacheKey := cacheKeyOf ast config
  match alGet cache cacheKey with
  | some cached => (cached, cache)
  | none =>
    if ast.nodes = [] then
      ({ layout := [], canvasWidth := config.width, canvasHeight := config.height }, cache)
    else
      let result := calculateLayoutFresh ast config
      (result, alSet cache cacheKey result)

/-! ## Collision geometry primitives -/

/-- Parametric segment-segment intersection test; a near-zero denominator
(`|denom| < 1e-10`) is treated as parallel, no intersection. -/
def lineIntersectsLine (p1 p2 p3 p4 : Position) : Bool :=
  let denom := (p1.x - p2.x) * (p3.y - p4.y) - (p1.y - p2.y) * (p3.x - p4.x)
  if |denom| < 1e-10 then false
  else
    let t := ((p1.x - p3.x) * (p3.y - p4.y) - (p1.y - p3.y) * (p3.x - p4.x)) / denom
    let u := -((p1.x - p2.x) * (p1.y - p3.y) - (p1.y - p2.y) * (p1.x - p3.x)) / denom
    decide (t ≥ 0 ∧ t ≤ 1 ∧ u ≥ 0 ∧ u ≤ 1)

structure Rect where
  left : ℚ
  right : ℚ
  top : ℚ
  bottom : ℚ

/-- Segment vs axis-aligned rectangle: an endpoint inside the rectangle, or
an intersection with one of its four edges. -/
def lineSegmentIntersectsRect (lineStart lineEnd : Position) (rect : Rect) : Bool :=
  if (lineStart.x ≥ rect.left ∧ lineStart.x ≤ rect.right ∧
      lineStart.y ≥ rect.top ∧ lineStart.y ≤ rect.bottom) ∨
     (lineEnd.x ≥ rect.left ∧ lineEnd.x ≤ rect.right ∧
      lineEnd.y ≥ rect.top ∧ lineEnd.y ≤ rect.bottom) then true
  else
    lineIntersectsLine lineStart lineEnd ⟨rect.left, rect.top⟩ ⟨rect.right, rect.top⟩ ||
    lineIntersectsLine lineStart lineEnd ⟨rect.right, rect.top⟩ ⟨rect.right, rect.bottom⟩ ||
    lineIntersectsLine lineStart lineEnd ⟨rect.right, rect.bottom⟩ ⟨rect.left, rect.bottom⟩ ||
    lineIntersectsLine lineStart lineEnd ⟨rect.left, rect.bottom⟩ ⟨rect.left, rect.top⟩

/-- Point-to-segment distance (`distanceFromPointToLine`). -/
def distanceFromPointToLine (point lineStart lineEnd : Position) : ℚ :=
  let dx := lineEnd.x - lineStart.x
  let dy := lineEnd.y - lineStart.y
  let length := ratSqrt (dx * dx + dy * dy)
  if length = 0 then
    ratSqrt ((point.x - lineStart.x) ^ 2 + (point.y - lineStart.y) ^ 2)
  else
    let t := max 0 (min 1
      (((point.x - lineStart.x) * dx + (point.y - lineStart.y) * dy) / (length * length)))
    let projx := lineStart.x + t * dx
    let projy := lineStart.y + t * dy
    ratSqrt ((point.x - projx) ^ 2 + (point.y - projy) ^ 2)

/-- Shape-aware segment/node intersection with the fixed collision padding.
For circles the source reads `dimensions.radius!` (a non-null assertion);
circle dimensions always carry a radius, and `.getD 0` models the assertion.
The trailing `nodeLabel` parameter is optional in the source
(`nodeLabel ?? ""`); every caller passes it. -/
def lineIntersectsNode (lineStart lineEnd nodePos : Position)
    (nodeShape : String) (nodeLabel : String) : Bool :=
  let dimensions := calculateNodeDimensions nodeLabel nodeShape
  let padding := RENDERING_COLLISION_PADDING
  if nodeShape = "circle" then
    let radius := dimensions.radius.getD 0 + padding
    decide (distanceFromPointToLine nodePos lineStart lineEnd < radius)
  else
    let halfWidth := dimensions.width / 2 + padding
    let halfHeight := dimensions.height / 2 + padding
    lineSegmentIntersectsRect lineStart lineEnd
      ⟨nodePos.x - halfWidth, nodePos.x + halfWidth,
       nodePos.y - halfHeight, nodePos.y + halfHeight⟩

/-- Waypoint list to consecutive segment list (`toPathSegments`). -/
def toPathSegments (points : List Position) : List (Position × Position) :=
  points.zip points.tail

/-- Full-path collision scan: every layout entry (in map iteration order, i.e.
insertion order) outside the excluded ids whose padded geometry intersects
some path segment. -/
def findCollidingNodes (pathSegments : List (Position × Position))
    (excludeIds : List String) (layout : List (String × Position))
    (nodeShapes nodeLabels : List (String × String)) : List String :=
  (layout.filter (fun np =>
    !(decide (np.1 ∈ excludeIds)) &&
    pathSegments.any (fun seg =>
      lineIntersectsNode seg.1 seg.2 np.2
        (jsStringOr (alGet nodeShapes np.1) "rectangle")
        (jsStringOr (alGet nodeLabels np.1) "")))).map (·.1)

/-! ## Port computation and path generation -/

structure Ports where
  exitPort : Position
  entryPort : Position

/-- Boundary exit/entry ports (`calculatePorts`): same-layer edges leave from
the side faces toward the other node; cross-layer edges leave from the
layer-advance faces, flipped for reversed directions. -/
def calculatePorts (fromPos toPos : Position) (fromDim toDim : Dimensions)
    (isVertical isReversed sameLayer : Bool) : Ports :=
  if sameLayer then
    if isVertical then
      let goRight := toPos.x > fromPos.x
      { exitPort := ⟨fromPos.x + (if goRight then fromDim.width / 2 + RENDERING_PORT_OFFSET
                                  else -(fromDim.width / 2) - RENDERING_PORT_OFFSET), fromPos.y⟩,
        entryPort := ⟨toPos.x + (if goRight then -(toDim.width / 2) - RENDERING_PORT_OFFSET
                                 else toDim.width / 2 + RENDERING_PORT_OFFSET), toPos.y⟩ }
    else
      let goDown := toPos.y > fromPos.y
      { exitPort := ⟨fromPos.x, fromPos.y + (if goDown then fromDim.height / 2 + RENDERING_PORT_OFFSET
                                             else -(fromDim.height / 2) - RENDERING_PORT_OFFSET)⟩,
        entryPort := ⟨toPos.x, toPos.y + (if goDown then -(toDim.height / 2) - RENDERING_PORT_OFFSET
                                          else toDim.height / 2 + RENDERING_PORT_OFFSET)⟩ }
  else if isVertical then
    if isReversed then
      { exitPort := ⟨fromPos.x, fromPos.y - fromDim.height / 2 - RENDERING_PORT_OFFSET⟩,
        entryPort := ⟨toPos.x, toPos.y + toDim.height / 2 + RENDERING_PORT_OFFSET⟩ }
    else
      { exitPort := ⟨fromPos.x, fromPos.y + fromDim.height / 2 + RENDERING_PORT_OFFSET⟩,
        entryPort := ⟨toPos.x, toPos.y - toDim.height / 2 - RENDERING_PORT_OFFSET⟩ }
  else if isReversed then
    { exitPort := ⟨fromPos.x - fromDim.width / 2 - RENDERING_PORT_OFFSET, fromPos.y⟩,
      entryPort := ⟨toPos.x + toDim.width / 2 + RENDERING_PORT_OFFSET, toPos.y⟩ }
  else
    { exitPort := ⟨fromPos.x + fromDim.width / 2 + RENDERING_PORT_OFFSET, fromPos.y⟩,
      entryPort := ⟨toPos.x - toDim.width / 2 - RENDERING_PORT_OFFSET, toPos.y⟩ }

/-- Straight or Z-shaped orthogonal path between two ports
(`generateOrthogonalPath`). -/
def generateOrthogonalPath (exitPort entryPort : Position) (isVertical : Bool) :
    List Position :=
  if isVertical then
    if |exitPort.x - entryPort.x| < 2 then [exitPort, entryPort]
    else
      let midY := (exitPort.y + entryPort.y) / 2
      [exitPort, ⟨exitPort.x, midY⟩, ⟨entryPort.x, midY⟩, entryPort]
  else
    if |exitPort.y - entryPort.y| < 2 then [exitPort, entryPort]
    else
      let midX := (exitPort.x + entryPort.x) / 2
      [exitPort, ⟨midX, exitPort.y⟩, ⟨midX, entryPort.y⟩, entryPort]

/-! ## Collision avoidance (`avoidCollisions`) -/

/-- The `while (collisions.length > 0 && retries < MAX)` widening loop.  The
fuel counts the remaining retries (`MAX_COLLISION_RETRIES - retries`); the
`retries` argument drives the growing shift amount.  A current path that is
not 4 waypoints long hits the `break`. -/
def collisionRetryLoop (excludeIds : List String)
    (layout : List (String × Position)) (nodeShapes nodeLabels : List (String × String))
    (isVertical : Bool) : ℕ → ℕ → List Position → List Position
  | 0, _, current => current
  | fuel + 1, retries, current =>
    match findCollidingNodes (toPathSegments current) excludeIds layout nodeShapes nodeLabels with
    | [] => current
    | c0 :: _ =>
      let shiftAmount := RENDERING_COLLISION_AVOIDANCE_OFFSET * ((retries : ℚ) + 1)
      let collidingPos := alGet layout c0
      match current with
      | [p0, p1, _, p3] =>
        if isVertical then
          let currentDetour := p1.x
          let shiftDir : ℚ :=
            match collidingPos with
            | some cp => if cp.x > currentDetour then -1 else 1
            | none => 1
          let newDetour := currentDetour + shiftDir * shiftAmount
          collisionRetryLoop excludeIds layout nodeShapes nodeLabels isVertical fuel
            (retries + 1) [p0, ⟨newDetour, p0.y⟩, ⟨newDetour, p3.y⟩, p3]
        else
          let currentDetour := p1.y
          let shiftDir : ℚ :=
            match collidingPos with
            | some cp => if cp.y > currentDetour then -1 else 1
            | none => 1
          let newDetour := currentDetour + shiftDir * shiftAmount
          collisionRetryLoop excludeIds layout nodeShapes nodeLabels isVertical fuel
            (retries + 1) [p0, ⟨p0.x, newDetour⟩, ⟨p3.x, newDetour⟩, p3]
      | _ => current

/-- Iterative collision avoidance: a colliding straight line is first
promoted to a Z-shape detour away from the first colliding node, then the
detour channel is widened for up to `MAX_COLLISION_RETRIES` retries. -/
def avoidCollisions (path : List Position) (excludeIds : List String)
    (layout : List (String × Position)) (nodeShapes nodeLabels : List (String × String))
    (isVertical : Bool) : List Position :=
  let current :=
    match path, findCollidingNodes (toPathSegments path) excludeIds layout nodeShapes nodeLabels with
    | [p0, p1], c0 :: _ =>
      let initialOffset := RENDERING_COLLISION_AVOIDANCE_OFFSET
      let collidingPos := alGet layout c0
      if isVertical then
        let shiftDir : ℚ :=
          match collidingPos with
          | some cp => if cp.x > p0.x then -1 else 1
          | none => 1
        let detourX := p0.x + shiftDir * initialOffset
        [p0, ⟨detourX, p0.y⟩, ⟨detourX, p1.y⟩, p1]
      else
        let shiftDir : ℚ :=
          match collidingPos with
          | some cp => if cp.y > p0.y then -1 else 1
          | none => 1
        let detourY := p0.y + shiftDir * initialOffset
        [p0, ⟨p0.x, detourY⟩, ⟨p1.x, detourY⟩, p1]
    | _, _ => path
  collisionRetryLoop excludeIds layout nodeShapes nodeLabels isVertical
    RENDERING_MAX_COLLISION_RETRIES 0 current

/-! ## Edge routing (`improvedRouteEdgePath`) -/

def edgeIsVertical (direction : String) : Bool :=
  direction = "TD" ∨ direction = "TB" ∨ direction = "BT"

def edgeIsReversed (direction : String) : Bool :=
  direction = "BT" ∨ direction = "RL"

/-- Same-layer test: layer-axis coordinates within the 10-unit tolerance. -/
def edgeSameLayer (fromPos toPos : Position) (direction : String) : Bool :=
  if edgeIsVertical direction then
    |fromPos.y - toPos.y| < 10
  else
    |fromPos.x - toPos.x| < 10

/-- The exit/entry ports computed by `improvedRouteEdgePath` from the node
shape/label maps. -/
def edgePorts (fromPos toPos : Position) (edge : MermaidEdge)
    (nodeShapes nodeLabels : List (String × String)) (direction : String) : Ports :=
  let fromDim := calculateNodeDimensions
    (jsStringOr (alGet nodeLabels edge.fromId) "")
    (jsStringOr (alGet nodeShapes edge.fromId) "rectangle")
  let toDim := calculateNodeDimensions
    (jsStringOr (alGet nodeLabels edge.toId) "")
    (jsStringOr (alGet nodeShapes edge.toId) "rectangle")
  calculatePorts fromPos toPos fromDim toDim
    (edgeIsVertical direction) (edgeIsReversed direction)
    (edgeSameLayer fromPos toPos direction)

/-- Direction-aware orthogonal edge routing with collision detection.
Same-layer edges return the direct port-to-port path without any collision
handling; cross-layer edges run `avoidCollisions` over the straight or
Z-shaped orthogonal path. -/
def improvedRouteEdgePath (fromPos toPos : Position) (edge : MermaidEdge)
    (layout : List (String × Position)) (nodeShapes nodeLabels : List (String × String))
    (direction : String) : List Position :=
  let isVertical := edgeIsVertical direction
  let sameLayer := edgeSameLayer fromPos toPos direction
  let ports := edgePorts fromPos toPos edge nodeShapes nodeLabels direction
  if sameLayer then [ports.exitPort, ports.entryPort]
  else
    let path := generateOrthogonalPath ports.exitPort ports.entryPort isVertical
    avoidCollisions path [edge.fromId, edge.toId] layout nodeShapes nodeLabels isVertical

/-! ## SVG renderer (geometric content of `svgRenderer`)

The serializer's string interpolation is out of scope (§1 of the spec); the
model keeps the renderer's observable structure: the `Result` success value,
the canvas size, and which nodes and edges are emitted with which positions
and waypoints (`filter(Boolean)` drops the skipped entries). -/

inductive RenderResult (α : Type) where
  | ok (data : α)
  | error (e : String)
deriving DecidableEq, Repr

structure SvgOutput where
  canvasWidth : ℚ
  canvasHeight : ℚ
  nodeElements : List (MermaidNode × Position)
  edgeElements : List (MermaidEdge × List Position)
deriving DecidableEq, Repr

/-- Geometric content computed by `svgRenderer`, with the module cache as an
explicit parameter threaded through `optimizedCalculateLayout`. -/
def svgRendererCore (ast : MermaidAST) (config : SvgConfig) (cache : LayoutCache) :
    SvgOutput × LayoutCache :=
  let lr := (optimizedCalculateLayout ast config cache).1
  let cache' := (optimizedCalculateLayout ast config cache).2
  let direction := astDirection ast
  let nodeShapes := ast.nodes.foldl (fun m n => alSet m n.id n.shape) []
  let nodeLabels := ast.nodes.foldl (fun m n => alSet m n.id n.label) []
  let nodeElements := ast.nodes.filterMap (fun n =>
    (alGet lr.layout n.id).map (fun pos => (n, pos)))
  let edgeElements := ast.edges.filterMap (fun e =>
    match alGet lr.layout e.fromId, alGet lr.layout e.toId with
    | some fromPos, some toPos =>
      some (e, improvedRouteEdgePath fromPos toPos e lr.layout nodeShapes nodeLabels direction)
    | _, _ => none)
  ({ canvasWidth := lr.canvasWidth, canvasHeight := lr.canvasHeight,
     nodeElements := nodeElements, edgeElements := edgeElements }, cache')

/-- `svgRenderer`: always returns `Ok` (the source has no error path). -/
def svgRenderer (ast : MermaidAST) (config : SvgConfig) (cache : LayoutCache) :
    RenderResult SvgOutput × LayoutCache :=
  (RenderResult.ok (svgRendererCore ast config cache).1,
   (svgRendererCore ast config cache).2)

/-! ## Spec-side definition for the empty-label defaults (claim C7)

Stated from the specification's words ("fixed fallback size per shape",
"independent of any font-metric computation"): a bare table of constants,
mentioning no text-measurement function. -/

def emptyLabelDefaults (shape : String) : Dimensions :=
  if shape = "circle" then { width := 60, height := 60, radius := some 30 }
  else if shape = "rhombus" then { width := 80, height := 40 }
  else if shape = "stadium" then { width := 100, height := 40 }
  else if shape = "hexagon" then { width := 90, height := 40 }
  else { width := 80, height := 40 }

/-! ## Concrete fixtures used by witnesses and counterexamples -/

def cfgFix : SvgConfig := ⟨800, 600, 120, "light"⟩

def cfgNarrow : SvgConfig := ⟨100, 600, 120, "light"⟩

def cfgWide : SvgConfig := ⟨1000, 600, 120, "light"⟩

/-- Two unlabeled rectangles, no edges: both land in one layer. -/
def astPairPlain : MermaidAST :=
  { diagramType := .flowchart "TD",
    nodes := [⟨"a", "", "rectangle"⟩, ⟨"b", "", "rectangle"⟩],
    edges := [] }

/-- Same ids/edges as `astPairPlain` but `a` carries a 10-character label:
the layout cache key cannot tell the two diagrams apart. -/
def astPairLabeled : MermaidAST :=
  { diagramType := .flowchart "TD",
    nodes := [⟨"a", "xxxxxxxxxx", "rectangle"⟩, ⟨"b", "", "rectangle"⟩],
    edges := [] }

/-- One 20-character-label rectangle on a narrow requested canvas: the node's
half-width (80) exceeds the canvas padding (60). -/
def astWide : MermaidAST :=
  { diagramType := .flowchart "TD",
    nodes := [⟨"a", "xxxxxxxxxxxxxxxxxxxx", "rectangle"⟩],
    edges := [] }

/-- A 2-cycle plus a disconnected node: no zero-in-degree node among
`a`, `b`, so they reach the catch-all layer. -/
def astCycle : MermaidAST :=
  { diagramType := .flowchart "TD",
    nodes := [⟨"a", "", "rectangle"⟩, ⟨"b", "", "rectangle"⟩, ⟨"c", "", "rectangle"⟩],
    edges := [⟨"a", "b", none, "arrow"⟩, ⟨"b", "a", none, "arrow"⟩] }

/-- An edge to the id `b`, absent from the node mapping. -/
def astDangling : MermaidAST :=
  { diagramType := .flowchart "TD",
    nodes := [⟨"a", "", "rectangle"⟩],
    edges := [⟨"a", "b", none, "arrow"⟩] }

/-- An edge from the id `ghost`, absent from the node mapping; `ghost` is
never enqueued, so it gets no position and the edge is skipped. -/
def astGhostSource : MermaidAST :=
  { diagramType := .flowchart "TD",
    nodes := [⟨"a", "", "rectangle"⟩],
    edges := [⟨"ghost", "a", none, "arrow"⟩] }

def edgeAB : MermaidEdge := ⟨"a", "b", none, "arrow"⟩

/-- Three unlabeled rectangles side by side in one row (a same-layer
arrangement): `c` sits on the straight line from `a` to `b`. -/
def layoutRow : List (String × Position) :=
  [("a", ⟨0, 0⟩), ("c", ⟨100, 0⟩), ("b", ⟨200, 0⟩)]

/-- Three unlabeled rectangles stacked in one column (a cross-layer
arrangement): `c` sits on the straight line from `a` to `b`. -/
def layoutCol : List (String × Position) :=
  [("a", ⟨400, 80⟩), ("c", ⟨400, 180⟩), ("b", ⟨400, 280⟩)]

def shapesABC : List (String × String) :=
  [("a", "rectangle"), ("c", "rectangle"), ("b", "rectangle")]

def labelsABC : List (String × String) :=
  [("a", ""), ("c", ""), ("b", "")]

/-! ## Basic helper lemmas -/

theorem foldl_max_le_of_mem {α : Type} (f : α → ℚ) :
    ∀ (l : List α) (init : ℚ) (e : α), e ∈ l →
      f e ≤ l.foldl (fun m x => max m (f x)) init := by
  intro l
  induction l with
  | nil => intro init e he; cases he
  | cons a t ih =>
    intro init e he
    rcases List.mem_cons.mp he with h | h
    · subst h
      calc f e ≤ max init (f e) := le_max_right _ _
        _ ≤ t.foldl (fun m x => max m (f x)) (max init (f e)) :=
          init_le_foldl_max f t _
    · exact ih (max init (f a)) e h
where
  init_le_foldl_max (f : α → ℚ) :
      ∀ (l : List α) (init : ℚ), init ≤ l.foldl (fun m x => max m (f x)) init := by
    intro l
    induction l with
    | nil => intro init; exact le_rfl
    | cons a t ih =>
      intro init
      exact le_trans (le_max_left init (f a)) (ih (max init (f a)))

theorem init_le_foldl_max' {α : Type} (f : α → ℚ) :
    ∀ (l : List α) (init : ℚ), init ≤ l.foldl (fun m x => max m (f x)) init := by
  intro l
  induction l with
  | nil => intro init; exact le_rfl
  | cons a t ih =>
    intro init
    exact le_trans (le_max_left init (f a)) (ih (max init (f a)))

theorem layerMaxSize_nonneg (dims : String → Dimensions) (hor : Bool)
    (layer : List String) : 0 ≤ layerMaxSize dims hor layer :=
  init_le_foldl_max' _ layer 0

theorem calculateNodeDimensions_width_nonneg (label shape : String) :
    0 ≤ (calculateNodeDimensions label shape).width := by
  unfold calculateNodeDimensions
  split_ifs <;>
    simp only [RENDERING_MIN_NODE_WIDTH, RENDERING_MIN_NODE_HEIGHT,
      RENDERING_NODE_FONT_SIZE, RENDERING_NODE_TEXT_PADDING] <;>
    positivity

theorem calculateNodeDimensions_height_nonneg (label shape : String) :
    0 ≤ (calculateNodeDimensions label shape).height := by
  unfold calculateNodeDimensions
  split_ifs <;>
    simp only [RENDERING_MIN_NODE_WIDTH, RENDERING_MIN_NODE_HEIGHT,
      RENDERING_NODE_FONT_SIZE, RENDERING_NODE_TEXT_PADDING] <;>
    positivity

theorem axisNodeDim_nonneg (hor : Bool) (label shape : String) :
    0 ≤ axisNodeDim hor (calculateNodeDimensions label shape) := by
  unfold axisNodeDim
  split
  · exact calculateNodeDimensions_height_nonneg label shape
  · exact calculateNodeDimensions_width_nonneg label shape

theorem nodeDimsOf_axis_nonneg (hor : Bool) (nodes : List MermaidNode)
    (nodeId : String) : 0 ≤ axisNodeDim hor (nodeDimsOf nodes nodeId) := by
  unfold nodeDimsOf
  cases nodes.find? (fun n => decide (n.id = nodeId)) with
  | none => exact axisNodeDim_nonneg hor "" "rectangle"
  | some node => exact axisNodeDim_nonneg hor node.label node.shape

/-! ## Offset separation lemmas -/

theorem layerOffsetAt_succ (dims : String → Dimensions) (hor : Bool)
    (spacing : ℚ) (layer : List String) (i : ℕ) :
    layerOffsetAt dims hor spacing layer (i + 1) =
      layerOffsetAt dims hor spacing layer i +
        max spacing (axisNodeDim hor (dims (layer.getD i "")) / 2 +
          LAYOUT_MIN_NODE_GAP + axisNodeDim hor (dims (layer.getD (i + 1) "")) / 2) := rfl

/-- Any two slots of one layer are separated by at least the half-dimensions
of both plus the minimum gap: offsets accumulate at least the required
adjacent gap, and intermediate nodes only add nonnegative width. -/
theorem layerOffsetAt_pair_ge (dims : String → Dimensions) (hor : Bool)
    (spacing : ℚ) (layer : List String)
    (hnn : ∀ nodeId, 0 ≤ axisNodeDim hor (dims nodeId)) :
    ∀ i j, i < j →
      axisNodeDim hor (dims (layer.getD i "")) / 2 + LAYOUT_MIN_NODE_GAP +
        axisNodeDim hor (dims (layer.getD j "")) / 2
      ≤ layerOffsetAt dims hor spacing layer j - layerOffsetAt dims hor spacing layer i := by
  intro i j hij
  induction j, hij using Nat.le_induction with
  | base =>
    rw [layerOffsetAt_succ]
    have := le_max_right spacing
      (axisNodeDim hor (dims (layer.getD i "")) / 2 + LAYOUT_MIN_NODE_GAP +
        axisNodeDim hor (dims (layer.getD (i + 1) "")) / 2)
    linarith
  | succ n hn ih =>
    rw [layerOffsetAt_succ]
    have hadj := le_max_right spacing
      (axisNodeDim hor (dims (layer.getD n "")) / 2 + LAYOUT_MIN_NODE_GAP +
        axisNodeDim hor (dims (layer.getD (n + 1) "")) / 2)
    have hgap : (0 : ℚ) ≤ LAYOUT_MIN_NODE_GAP := by norm_num [LAYOUT_MIN_NODE_GAP]
    have hmid := hnn (layer.getD n "")
    linarith

/-! ## Layer entry lemmas -/

theorem layerEntries_map_fst (dims : String → Dimensions) (hor : Bool)
    (w h sp c : ℚ) (layer : List String) :
    (layerEntries dims hor w h sp c layer).map Prod.fst = layer := by
  unfold layerEntries
  rw [List.map_map]
  apply List.ext_getElem
  · simp
  · intro n h1 h2
    simp only [List.getElem_map, List.getElem_range, Function.comp_apply]
    exact List.getD_eq_getElem layer "" h2

theorem layerEntries_mem (dims : String → Dimensions) (hor : Bool)
    (w h sp c : ℚ) (layer : List String) (id : String) (p : Position)
    (hmem : (id, p) ∈ layerEntries dims hor w h sp c layer) :
    ∃ i, i < layer.length ∧ layer.getD i "" = id ∧
      spreadCoord hor p =
        layerStartNode dims hor w h sp layer + layerOffsetAt dims hor sp layer i := by
  unfold layerEntries at hmem
  rcases List.mem_map.mp hmem with ⟨i, hirange, heq⟩
  have hi : i < layer.length := List.mem_range.mp hirange
  simp only [Prod.mk.injEq] at heq
  refine ⟨i, hi, heq.1, ?_⟩
  · rw [← heq.2]
    cases hor <;> simp [spreadCoord]

/-! ## Placement loop lemmas -/

theorem placeStep_layout (dims : String → Dimensions) (hor : Bool)
    (w h sp : ℚ) (layer : List String) (rest : List (List String)) (st : PlaceSt) :
    (placeStep dims hor w h sp layer rest st).layout =
      st.layout ++ layerEntries dims hor w h sp
        (st.layerOffset + layerMaxSize dims hor layer / 2) layer := rfl

theorem placeStep_maxX (dims : String → Dimensions) (hor : Bool)
    (w h sp : ℚ) (layer : List String) (rest : List (List String)) (st : PlaceSt) :
    (placeStep dims hor w h sp layer rest st).maxX =
      (layerEntries dims hor w h sp
        (st.layerOffset + layerMaxSize dims hor layer / 2) layer).foldl (fun m e =>
          if hor then max m (e.2.x + layerMaxSize dims hor layer / 2 + LAYOUT_MIN_NODE_GAP)
          else max m (e.2.x + LAYOUT_CANVAS_PADDING)) st.maxX := rfl

theorem placeStep_maxY (dims : String → Dimensions) (hor : Bool)
    (w h sp : ℚ) (layer : List String) (rest : List (List String)) (st : PlaceSt) :
    (placeStep dims hor w h sp layer rest st).maxY =
      (layerEntries dims hor w h sp
        (st.layerOffset + layerMaxSize dims hor layer / 2) layer).foldl
        (fun m e => max m (e.2.y + LAYOUT_CANVAS_PADDING)) st.maxY := rfl

theorem le_foldl_of_le {α : Type} (g : ℚ → α → ℚ) (hg : ∀ m x, m ≤ g m x) :
    ∀ (l : List α) (init : ℚ), init ≤ l.foldl g init := by
  intro l
  induction l with
  | nil => intro init; exact le_rfl
  | cons a t ih => intro init; exact le_trans (hg init a) (ih (g init a))

theorem foldl_of_mem_le {α : Type} (g : ℚ → α → ℚ) (hg : ∀ m x, m ≤ g m x)
    (f : α → ℚ) (hf : ∀ m x, f x ≤ g m x) :
    ∀ (l : List α) (init : ℚ) (e : α), e ∈ l → f e ≤ l.foldl g init := by
  intro l
  induction l with
  | nil => intro init e he; cases he
  | cons a t ih =>
    intro init e he
    rcases List.mem_cons.mp he with h | h
    · subst h; exact le_trans (hf init e) (le_foldl_of_le g hg t (g init e))
    · exact ih (g init a) e h

/-- Structure of the final layout: the initial layout followed by a tail
whose keys are exactly the flattened layers in order. -/
theorem placeLayers_layout_structure (dims : String → Dimensions) (hor : Bool)
    (w h sp : ℚ) :
    ∀ (layers : List (List String)) (st : PlaceSt),
      ∃ tail, (placeLayers dims hor w h sp layers st).layout = st.layout ++ tail ∧
        tail.map Prod.fst = layers.flatten := by
  intro layers
  induction layers with
  | nil =>
    intro st
    exact ⟨[], by simp [placeLayers], by simp⟩
  | cons layer rest ih =>
    intro st
    rcases ih (placeStep dims hor w h sp layer rest st) with ⟨tail, h1, h2⟩
    refine ⟨layerEntries dims hor w h sp
      (st.layerOffset + layerMaxSize dims hor layer / 2) layer ++ tail, ?_, ?_⟩
    · simp only [placeLayers]
      rw [h1, placeStep_layout, List.append_assoc]
    · rw [List.map_append, h2, layerEntries_map_fst, List.flatten_cons]

/-- Every entry of the final layout is an initial entry or a slot of one of
the placed layers, with spread coordinate `startNode + offsets[i]`. -/
theorem placeLayers_mem_spread (dims : String → Dimensions) (hor : Bool)
    (w h sp : ℚ) :
    ∀ (layers : List (List String)) (st : PlaceSt) (id : String) (p : Position),
      (id, p) ∈ (placeLayers dims hor w h sp layers st).layout →
      (id, p) ∈ st.layout ∨
        ∃ layer, layer ∈ layers ∧ ∃ i, i < layer.length ∧
          layer.getD i "" = id ∧
          spreadCoord hor p =
            layerStartNode dims hor w h sp layer + layerOffsetAt dims hor sp layer i := by
  intro layers
  induction layers with
  | nil =>
    intro st id p hmem
    left
    simpa [placeLayers] using hmem
  | cons layer rest ih =>
    intro st id p hmem
    simp only [placeLayers] at hmem
    rcases ih (placeStep dims hor w h sp layer rest st) id p hmem with hmem' | hlater
    · rw [placeStep_layout] at hmem'
      rcases List.mem_append.mp hmem' with hcase | hcase
      · left; exact hcase
      · right
        rcases layerEntries_mem dims hor w h sp _ layer id p hcase with ⟨i, hi, hid, hsp⟩
        exact ⟨layer, List.mem_cons_self _ _, i, hi, hid, hsp⟩
    · right
      rcases hlater with ⟨l, hl, hrest⟩
      exact ⟨l, List.mem_cons_of_mem _ hl, hrest⟩

theorem placeLayers_maxX_mono (dims : String → Dimensions) (hor : Bool)
    (w h sp : ℚ) :
    ∀ (layers : List (List String)) (st : PlaceSt),
      st.maxX ≤ (placeLayers dims hor w h sp layers st).maxX := by
  intro layers
  induction layers with
  | nil => intro st; simp [placeLayers]
  | cons layer rest ih =>
    intro st
    refine le_trans ?_ (ih (placeStep dims hor w h sp layer rest st))
    rw [placeStep_maxX]
    apply le_foldl_of_le
    intro m x
    split
    · exact le_max_left _ _
    · exact le_max_left _ _

theorem placeLayers_maxY_mono (dims : String → Dimensions) (hor : Bool)
    (w h sp : ℚ) :
    ∀ (layers : List (List String)) (st : PlaceSt),
      st.maxY ≤ (placeLayers dims hor w h sp layers st).maxY := by
  intro layers
  induction layers with
  | nil => intro st; simp [placeLayers]
  | cons layer rest ih =>
    intro st
    refine le_trans ?_ (ih (placeStep dims hor w h sp layer rest st))
    rw [placeStep_maxY]
    apply le_foldl_of_le
    intro m x
    exact le_max_left _ _

/-- Every placed position is dominated by the running maxima: the canvas
keeps at least the min-gap margin beyond each center horizontally and the
canvas padding beyond it vertically. -/
theorem placeLayers_mem_bounds (dims : String → Dimensions) (hor : Bool)
    (w h sp : ℚ) :
    ∀ (layers : List (List String)) (st : PlaceSt) (id : String) (p : Position),
      (id, p) ∈ (placeLayers dims hor w h sp layers st).layout →
      (id, p) ∈ st.layout ∨
        (p.x + LAYOUT_MIN_NODE_GAP ≤ (placeLayers dims hor w h sp layers st).maxX ∧
         p.y + LAYOUT_CANVAS_PADDING ≤ (placeLayers dims hor w h sp layers st).maxY) := by
  intro layers
  induction layers with
  | nil =>
    intro st id p hmem
    left
    simpa [placeLayers] using hmem
  | cons layer rest ih =>
    intro st id p hmem
    simp only [placeLayers] at hmem ⊢
    rcases ih (placeStep dims hor w h sp layer rest st) id p hmem with hmem' | hbounds
    · rw [placeStep_layout] at hmem'
      rcases List.mem_append.mp hmem' with hcase | hcase
      · left; exact hcase
      · right
        constructor
        · refine le_trans ?_
            (placeLayers_maxX_mono dims hor w h sp rest (placeStep dims hor w h sp layer rest st))
          rw [placeStep_maxX]
          refine foldl_of_mem_le _ ?_ (fun e => e.2.x + LAYOUT_MIN_NODE_GAP) ?_ _ _ _ hcase
          · intro m x
            split
            · exact le_max_left _ _
            · exact le_max_left _ _
          · intro m x
            dsimp only
            split
            · have hs := layerMaxSize_nonneg dims hor layer
              have := le_max_right m (x.2.x + layerMaxSize dims hor layer / 2 + LAYOUT_MIN_NODE_GAP)
              linarith
            · have := le_max_right m (x.2.x + LAYOUT_CANVAS_PADDING)
              have hpad : LAYOUT_MIN_NODE_GAP ≤ LAYOUT_CANVAS_PADDING := by
                norm_num [LAYOUT_MIN_NODE_GAP, LAYOUT_CANVAS_PADDING]
              linarith
        · refine le_trans ?_
            (placeLayers_maxY_mono dims hor w h sp rest (placeStep dims hor w h sp layer rest st))
          rw [placeStep_maxY]
          refine foldl_of_mem_le _ ?_ (fun e => e.2.y + LAYOUT_CANVAS_PADDING) ?_ _ _ _ hcase
          · intro m x
            exact le_max_left _ _
          · intro m x
            dsimp only
            exact le_max_right _ _
    · right
      exact hbounds

/-! ## BFS layering lemmas -/

theorem childStep_visited (s : BfsSt) (c : String) :
    (childStep s c).visited = s.visited := by
  unfold childStep
  dsimp only
  split <;> split <;> rfl

theorem foldl_childStep_visited :
    ∀ (l : List String) (s : BfsSt), (List.foldl childStep s l).visited = s.visited := by
  intro l
  induction l with
  | nil => intro s; rfl
  | cons a t ih =>
    intro s
    rw [List.foldl_cons, ih, childStep_visited]

theorem processChildren_visited (outN : List (String × List String)) (st : BfsSt)
    (nodeId : String) : (processChildren outN st nodeId).visited = st.visited :=
  foldl_childStep_visited _ st

/-- One BFS round appends a block `Δ` of freshly visited, pairwise distinct
ids to both the visited list and the current layer. -/
theorem bfsRound_delta (outN : List (String × List String)) :
    ∀ (k : ℕ) (st : BfsSt) (layer : List String),
      ∃ Δ, (bfsRound outN k st layer).1.visited = st.visited ++ Δ ∧
        (bfsRound outN k st layer).2 = layer ++ Δ ∧
        Δ.Nodup ∧ ∀ x ∈ Δ, x ∉ st.visited := by
  intro k
  induction k with
  | zero =>
    intro st layer
    exact ⟨[], by simp [bfsRound], by simp [bfsRound], List.nodup_nil, by simp⟩
  | succ k ih =>
    intro st layer
    rcases hq : st.queue with _ | ⟨nodeId, rest⟩
    · exact ⟨[], by simp [bfsRound, hq], by simp [bfsRound, hq], List.nodup_nil, by simp⟩
    · by_cases hv : nodeId ∈ st.visited
      · have hred : bfsRound outN (k + 1) st layer =
            bfsRound outN k { st with queue := rest } layer := by
          simp [bfsRound, hq, hv]
        obtain ⟨Δ, h1, h2, h3, h4⟩ := ih { st with queue := rest } layer
        exact ⟨Δ, by rw [hred]; exact h1, by rw [hred]; exact h2, h3, h4⟩
      · have hred : bfsRound outN (k + 1) st layer =
            bfsRound outN k
              (processChildren outN { st with queue := rest, visited := st.visited ++ [nodeId] } nodeId)
              (layer ++ [nodeId]) := by
          simp [bfsRound, hq, hv]
        obtain ⟨Δ, h1, h2, h3, h4⟩ :=
          ih (processChildren outN { st with queue := rest, visited := st.visited ++ [nodeId] } nodeId)
            (layer ++ [nodeId])
        rw [processChildren_visited] at h1 h4
        refine ⟨nodeId :: Δ, ?_, ?_, ?_, ?_⟩
        · rw [hred, h1]
          simp
        · rw [hred, h2]
          simp
        · refine List.nodup_cons.mpr ⟨?_, h3⟩
          intro hmem
          exact h4 nodeId hmem (by simp)
        · intro x hx
          rcases List.mem_cons.mp hx with hx | hx
          · subst hx; exact hv
          · intro hxv
            exact h4 x hx (List.mem_append_left _ hxv)

/-- The BFS loop appends a block `Δ` of freshly visited, pairwise distinct
ids; the flattened produced layers are exactly that block. -/
theorem bfsLoop_delta (outN : List (String × List String)) :
    ∀ (fuel : ℕ) (st : BfsSt) (layers : List (List String)),
      ∃ Δ, (bfsLoop outN fuel st layers).2 = st.visited ++ Δ ∧
        (bfsLoop outN fuel st layers).1.flatten = layers.flatten ++ Δ ∧
        Δ.Nodup ∧ ∀ x ∈ Δ, x ∉ st.visited := by
  intro fuel
  induction fuel with
  | zero =>
    intro st layers
    exact ⟨[], by simp [bfsLoop], by simp [bfsLoop], List.nodup_nil, by simp⟩
  | succ fuel ih =>
    intro st layers
    by_cases hq : st.queue = []
    · exact ⟨[], by simp [bfsLoop, hq], by simp [bfsLoop, hq], List.nodup_nil, by simp⟩
    · obtain ⟨Δ₁, hv1, hl1, hnd1, hf1⟩ := bfsRound_delta outN st.queue.length st []
      simp only [List.nil_append] at hl1
      set r := bfsRound outN st.queue.length st [] with hr
      have hred : bfsLoop outN (fuel + 1) st layers =
          bfsLoop outN fuel r.1 (if r.2 = [] then layers else layers ++ [r.2]) := by
        simp [bfsLoop, hq]
      obtain ⟨Δ₂, hv2, hl2, hnd2, hf2⟩ := ih r.1 (if r.2 = [] then layers else layers ++ [r.2])
      have hflat : (if r.2 = [] then layers else layers ++ [r.2]).flatten =
          layers.flatten ++ Δ₁ := by
        by_cases hnil : r.2 = []
        · rw [if_pos hnil]
          rw [hnil] at hl1
          rw [← hl1]
          simp
        · rw [if_neg hnil, List.flatten_append, hl1]
          simp
      refine ⟨Δ₁ ++ Δ₂, ?_, ?_, ?_, ?_⟩
      · rw [hred, hv2, hv1, List.append_assoc]
      · rw [hred, hl2, hflat, List.append_assoc]
      · refine List.nodup_append.mpr ⟨hnd1, hnd2, ?_⟩
        intro x hx1 hx2
        exact hf2 x hx2 (by rw [hv1]; exact List.mem_append_right _ hx1)
      · intro x hx
        rcases List.mem_append.mp hx with hx | hx
        · exact hf1 x hx
        · intro hxv
          exact hf2 x hx (by rw [hv1]; exact List.mem_append_left _ hxv)

/-! ## Layer-assignment coverage lemmas -/

/-- The flattened layers are the BFS visited list followed by the remaining
(never-visited) node ids. -/
theorem assignLayers_flatten_eq (nodes : List MermaidNode) (edges : List MermaidEdge) :
    (assignLayers nodes edges).flatten =
      (assignLayersBfs nodes edges).2 ++
        (nodes.filter (fun n => n.id ∉ (assignLayersBfs nodes edges).2)).map (·.id) := by
  obtain ⟨Δ, hv, hl, _, _⟩ := bfsLoop_delta (outNodesMap nodes edges)
    (nodes.length + edges.length + 1)
    ⟨assignLayersQueue nodes edges, [], initialInDegree nodes edges⟩ []
  have hvis : (assignLayersBfs nodes edges).2 = Δ := by
    unfold assignLayersBfs
    rw [hv]
    rfl
  have hflat : (assignLayersBfs nodes edges).1.flatten = Δ := by
    unfold assignLayersBfs
    rw [hl]
    rfl
  simp only [assignLayers]
  split
  · next hrem =>
    rw [hvis] at hrem ⊢
    rw [hflat, hrem, List.append_nil]
  · next hrem =>
    rw [List.flatten_append, hflat, hvis]
    simp

theorem bfs_visited_nodup (nodes : List MermaidNode) (edges : List MermaidEdge) :
    (assignLayersBfs nodes edges).2.Nodup := by
  obtain ⟨Δ, hv, _, hnd, _⟩ := bfsLoop_delta (outNodesMap nodes edges)
    (nodes.length + edges.length + 1)
    ⟨assignLayersQueue nodes edges, [], initialInDegree nodes edges⟩ []
  have hvis : (assignLayersBfs nodes edges).2 = Δ := by
    unfold assignLayersBfs
    rw [hv]
    rfl
  rw [hvis]
  exact hnd

theorem remaining_nodup (nodes : List MermaidNode)
    (h : (nodes.map (·.id)).Nodup) (visited : List String) :
    ((nodes.filter (fun n => n.id ∉ visited)).map (·.id)).Nodup := by
  have hsub : ((nodes.filter (fun n => n.id ∉ visited)).map (·.id)).Sublist
      (nodes.map (·.id)) := (List.filter_sublist nodes).map _
  exact List.Nodup.sublist hsub h

/-- With unique node ids, no id appears twice across the produced layers. -/
theorem assignLayers_flatten_nodup (nodes : List MermaidNode)
    (edges : List MermaidEdge) (h : (nodes.map (·.id)).Nodup) :
    (assignLayers nodes edges).flatten.Nodup := by
  rw [assignLayers_flatten_eq]
  refine List.nodup_append.mpr ⟨bfs_visited_nodup nodes edges, remaining_nodup nodes h _, ?_⟩
  intro x hxv hxr
  rcases List.mem_map.mp hxr with ⟨n, hnf, hnx⟩
  have hnotin := (List.mem_filter.mp hnf).2
  simp only [decide_not, Bool.not_eq_true', decide_eq_false_iff_not] at hnotin
  exact hnotin (hnx ▸ hxv)

/-- Coverage: every node of the diagram appears exactly once across the
layers (visited exactly once, or exactly once in the catch-all layer). -/
theorem assignLayers_count_eq_one (nodes : List MermaidNode)
    (edges : List MermaidEdge) (h : (nodes.map (·.id)).Nodup)
    (n : MermaidNode) (hn : n ∈ nodes) :
    (assignLayers nodes edges).flatten.count n.id = 1 := by
  rw [assignLayers_flatten_eq, List.count_append]
  by_cases hv : n.id ∈ (assignLayersBfs nodes edges).2
  · rw [List.count_eq_one_of_mem (bfs_visited_nodup nodes edges) hv]
    have hnot : n.id ∉ (nodes.filter
        (fun n => n.id ∉ (assignLayersBfs nodes edges).2)).map (·.id) := by
      intro hmem
      rcases List.mem_map.mp hmem with ⟨m, hmf, hmx⟩
      have hnotin := (List.mem_filter.mp hmf).2
      simp only [decide_not, Bool.not_eq_true', decide_eq_false_iff_not] at hnotin
      exact hnotin (hmx ▸ hv)
    rw [List.count_eq_zero_of_not_mem hnot]
  · rw [List.count_eq_zero_of_not_mem hv, Nat.zero_add]
    have hmem : n.id ∈ (nodes.filter
        (fun n => n.id ∉ (assignLayersBfs nodes edges).2)).map (·.id) := by
      refine List.mem_map.mpr ⟨n, ?_, rfl⟩
      refine List.mem_filter.mpr ⟨hn, ?_⟩
      simp only [decide_not, Bool.not_eq_true', decide_eq_false_iff_not]
      exact hv
    exact List.count_eq_one_of_mem (remaining_nodup nodes h _) hmem

/-- In a duplicate-free flattening, an id determines its layer. -/
theorem flatten_nodup_layer_unique {L : List (List String)}
    (hnd : L.flatten.Nodup) :
    ∀ l₁ l₂, l₁ ∈ L → l₂ ∈ L → ∀ x, x ∈ l₁ → x ∈ l₂ → l₁ = l₂ := by
  induction L with
  | nil => intro l₁ l₂ h1; cases h1
  | cons l t ih =>
    intro l₁ l₂ h1 h2 x hx1 hx2
    rw [List.flatten_cons, List.nodup_append] at hnd
    obtain ⟨hl, ht, hdisj⟩ := hnd
    rcases List.mem_cons.mp h1 with h1 | h1 <;> rcases List.mem_cons.mp h2 with h2 | h2
    · rw [h1, h2]
    · exfalso
      exact hdisj (h1 ▸ hx1) (List.mem_flatten.mpr ⟨l₂, h2, hx2⟩)
    · exfalso
      exact hdisj (h2 ▸ hx2) (List.mem_flatten.mpr ⟨l₁, h1, hx1⟩)
    · exact ih ht l₁ l₂ h1 h2 x hx1 hx2

/-! ## Bridges between the cached entry point and the fresh computation -/

/-- With an empty cache, `optimizedCalculateLayout` returns the fresh
computation. -/
theorem optimizedCalculateLayout_empty_cache (ast : MermaidAST) (config : SvgConfig) :
    (optimizedCalculateLayout ast config []).1 = calculateLayoutFresh ast config := by
  by_cases hempty : ast.nodes = []
  · simp [optimizedCalculateLayout, alGet, hempty, calculateLayoutFresh, calculateLayoutCore]
  · simp [optimizedCalculateLayout, alGet, hempty]

/-- Unfolding of the nonempty-diagram branch of the layout core. -/
theorem calculateLayoutCore_of_ne (nodes : List MermaidNode)
    (edges : List MermaidEdge) (direction : String) (w h s : ℚ)
    (hne : nodes ≠ []) :
    calculateLayoutCore nodes edges direction w h s =
      { layout := (placeLayers (nodeDimsOf nodes) (directionIsHorizontal direction)
          w h s (assignLayers nodes edges) ⟨[], w, h, LAYOUT_INITIAL_LAYER_OFFSET⟩).layout,
        canvasWidth := max w (placeLayers (nodeDimsOf nodes) (directionIsHorizontal direction)
          w h s (assignLayers nodes edges) ⟨[], w, h, LAYOUT_INITIAL_LAYER_OFFSET⟩).maxX,
        canvasHeight := max h (placeLayers (nodeDimsOf nodes) (directionIsHorizontal direction)
          w h s (assignLayers nodes edges) ⟨[], w, h, LAYOUT_INITIAL_LAYER_OFFSET⟩).maxY } := by
  unfold calculateLayoutCore
  rw [if_neg hne]

/-! ## Concrete layout evaluations used by witnesses and counterexamples -/

theorem astPairPlain_layers :
    assignLayers astPairPlain.nodes astPairPlain.edges = [["a", "b"]] := by decide

set_option maxHeartbeats 2000000 in
theorem astPairPlain_layout_eval :
    calculateLayoutFresh astPairPlain cfgFix =
      ⟨[("a", ⟨340, 80⟩), ("b", ⟨460, 80⟩)], 800, 600⟩ := by
  rw [calculateLayoutFresh, calculateLayoutCore_of_ne _ _ _ _ _ _ (by decide),
    astPairPlain_layers]
  simp [placeLayers, placeStep, layerEntries, layerStartNode, layerTotalSpan,
    layerMaxSize, layerOffsetAt, axisLayerDim, axisNodeDim, nodeDimsOf,
    calculateNodeDimensions, estimateTextWidth, astPairPlain, cfgFix,
    directionIsHorizontal, astDirection, List.range_succ, List.find?, List.foldl,
    LAYOUT_MIN_NODE_GAP, LAYOUT_INITIAL_LAYER_OFFSET, LAYOUT_CANVAS_PADDING,
    LAYOUT_LAYER_SPACING_MULTIPLIER, RENDERING_MIN_NODE_WIDTH, RENDERING_MIN_NODE_HEIGHT,
    RENDERING_NODE_FONT_SIZE, RENDERING_NODE_TEXT_PADDING]
  norm_num

theorem astPairLabeled_layers :
    assignLayers astPairLabeled.nodes astPairLabeled.edges = [["a", "b"]] := by decide

set_option maxHeartbeats 2000000 in
theorem astPairLabeled_layout_eval :
    calculateLayoutFresh astPairLabeled cfgFix =
      ⟨[("a", ⟨338, 80⟩), ("b", ⟨462, 80⟩)], 800, 600⟩ := by
  rw [calculateLayoutFresh, calculateLayoutCore_of_ne _ _ _ _ _ _ (by decide),
    astPairLabeled_layers]
  simp [placeLayers, placeStep, layerEntries, layerStartNode, layerTotalSpan,
    layerMaxSize, layerOffsetAt, axisLayerDim, axisNodeDim, nodeDimsOf,
    calculateNodeDimensions, estimateTextWidth, astPairLabeled, cfgFix,
    directionIsHorizontal, astDirection, List.range_succ, List.find?, List.foldl,
    LAYOUT_MIN_NODE_GAP, LAYOUT_INITIAL_LAYER_OFFSET, LAYOUT_CANVAS_PADDING,
    LAYOUT_LAYER_SPACING_MULTIPLIER, RENDERING_MIN_NODE_WIDTH, RENDERING_MIN_NODE_HEIGHT,
    RENDERING_NODE_FONT_SIZE, RENDERING_NODE_TEXT_PADDING]
  norm_num [show ("xxxxxxxxxx" : String).length = 10 by decide]

set_option maxHeartbeats 2000000 in
theorem astPairPlain_layoutWide_eval :
    calculateLayoutFresh astPairPlain cfgWide =
      ⟨[("a", ⟨440, 80⟩), ("b", ⟨560, 80⟩)], 1000, 600⟩ := by
  rw [calculateLayoutFresh, calculateLayoutCore_of_ne _ _ _ _ _ _ (by decide),
    astPairPlain_layers]
  simp [placeLayers, placeStep, layerEntries, layerStartNode, layerTotalSpan,
    layerMaxSize, layerOffsetAt, axisLayerDim, axisNodeDim, nodeDimsOf,
    calculateNodeDimensions, estimateTextWidth, astPairPlain, cfgWide,
    directionIsHorizontal, astDirection, List.range_succ, List.find?, List.foldl,
    LAYOUT_MIN_NODE_GAP, LAYOUT_INITIAL_LAYER_OFFSET, LAYOUT_CANVAS_PADDING,
    LAYOUT_LAYER_SPACING_MULTIPLIER, RENDERING_MIN_NODE_WIDTH, RENDERING_MIN_NODE_HEIGHT,
    RENDERING_NODE_FONT_SIZE, RENDERING_NODE_TEXT_PADDING]
  norm_num

theorem astWide_layers :
    assignLayers astWide.nodes astWide.edges = [["a"]] := by decide

set_option maxHeartbeats 2000000 in
theorem astWide_layout_eval :
    calculateLayoutFresh astWide cfgNarrow = ⟨[("a", ⟨50, 80⟩)], 110, 600⟩ := by
  rw [calculateLayoutFresh, calculateLayoutCore_of_ne _ _ _ _ _ _ (by decide),
    astWide_layers]
  simp [placeLayers, placeStep, layerEntries, layerStartNode, layerTotalSpan,
    layerMaxSize, layerOffsetAt, axisLayerDim, axisNodeDim, nodeDimsOf,
    calculateNodeDimensions, estimateTextWidth, astWide, cfgNarrow,
    directionIsHorizontal, astDirection, List.range_succ, List.find?, List.foldl,
    LAYOUT_MIN_NODE_GAP, LAYOUT_INITIAL_LAYER_OFFSET, LAYOUT_CANVAS_PADDING,
    LAYOUT_LAYER_SPACING_MULTIPLIER, RENDERING_MIN_NODE_WIDTH, RENDERING_MIN_NODE_HEIGHT,
    RENDERING_NODE_FONT_SIZE, RENDERING_NODE_TEXT_PADDING]
  norm_num [show ("xxxxxxxxxxxxxxxxxxxx" : String).length = 20 by decide]

theorem astDangling_layers :
    assignLayers astDangling.nodes astDangling.edges = [["a"], ["b"]] := by decide

set_option maxHeartbeats 2000000 in
theorem astDangling_layout_eval :
    calculateLayoutFresh astDangling cfgFix =
      ⟨[("a", ⟨400, 80⟩), ("b", ⟨400, 280⟩)], 800, 600⟩ := by
  rw [calculateLayoutFresh, calculateLayoutCore_of_ne _ _ _ _ _ _ (by decide),
    astDangling_layers]
  simp [placeLayers, placeStep, layerEntries, layerStartNode, layerTotalSpan,
    layerMaxSize, layerOffsetAt, axisLayerDim, axisNodeDim, nodeDimsOf,
    calculateNodeDimensions, estimateTextWidth, astDangling, cfgFix,
    directionIsHorizontal, astDirection, List.range_succ, List.find?, List.foldl,
    LAYOUT_MIN_NODE_GAP, LAYOUT_INITIAL_LAYER_OFFSET, LAYOUT_CANVAS_PADDING,
    LAYOUT_LAYER_SPACING_MULTIPLIER, RENDERING_MIN_NODE_WIDTH, RENDERING_MIN_NODE_HEIGHT,
    RENDERING_NODE_FONT_SIZE, RENDERING_NODE_TEXT_PADDING]
  norm_num

theorem astGhostSource_layers :
    assignLayers astGhostSource.nodes astGhostSource.edges = [["a"]] := by decide

set_option maxHeartbeats 2000000 in
theorem astGhostSource_layout_eval :
    calculateLayoutFresh astGhostSource cfgFix = ⟨[("a", ⟨400, 80⟩)], 800, 600⟩ := by
  rw [calculateLayoutFresh, calculateLayoutCore_of_ne _ _ _ _ _ _ (by decide),
    astGhostSource_layers]
  simp [placeLayers, placeStep, layerEntries, layerStartNode, layerTotalSpan,
    layerMaxSize, layerOffsetAt, axisLayerDim, axisNodeDim, nodeDimsOf,
    calculateNodeDimensions, estimateTextWidth, astGhostSource, cfgFix,
    directionIsHorizontal, astDirection, List.range_succ, List.find?, List.foldl,
    LAYOUT_MIN_NODE_GAP, LAYOUT_INITIAL_LAYER_OFFSET, LAYOUT_CANVAS_PADDING,
    LAYOUT_LAYER_SPACING_MULTIPLIER, RENDERING_MIN_NODE_WIDTH, RENDERING_MIN_NODE_HEIGHT,
    RENDERING_NODE_FONT_SIZE, RENDERING_NODE_TEXT_PADDING]
  norm_num

/-! ## Claim C1 -/

/-- C1.  For every diagram and config (with the node map's key-uniqueness
invariant), any two distinct nodes that `optimizedCalculateLayout` places in
the same layer have centers separated along the spread axis by at least half
of the first node's spread-axis dimension plus the minimum gap plus half of
the second node's spread-axis dimension — so their spread-axis extents never
overlap. -/
theorem noOverlap_same_layer_spacing (ast : MermaidAST) (config : SvgConfig)
    (hids : (ast.nodes.map (·.id)).Nodup)
    (layer : List String) (hlayer : layer ∈ assignLayers ast.nodes ast.edges)
    (id₁ id₂ : String) (h₁ : id₁ ∈ layer) (h₂ : id₂ ∈ layer) (hne : id₁ ≠ id₂)
    (p q : Position)
    (hp : (id₁, p) ∈ ((optimizedCalculateLayout ast config []).1).layout)
    (hq : (id₂, q) ∈ ((optimizedCalculateLayout ast config []).1).layout) :
    axisNodeDim (directionIsHorizontal (astDirection ast)) (nodeDimsOf ast.nodes id₁) / 2 +
      LAYOUT_MIN_NODE_GAP +
      axisNodeDim (directionIsHorizontal (astDirection ast)) (nodeDimsOf ast.nodes id₂) / 2
    ≤ |spreadCoord (directionIsHorizontal (astDirection ast)) q -
        spreadCoord (directionIsHorizontal (astDirection ast)) p| := by
  rw [optimizedCalculateLayout_empty_cache] at hp hq
  unfold calculateLayoutFresh at hp hq
  by_cases hempty : ast.nodes = []
  · rw [hempty] at hp
    unfold calculateLayoutCore at hp
    simp at hp
  · rw [calculateLayoutCore_of_ne _ _ _ _ _ _ hempty] at hp hq
    obtain hcase₁ | ⟨layer₁, hlayer₁, i, hi, hid₁, hspread₁⟩ :=
      placeLayers_mem_spread (nodeDimsOf ast.nodes)
        (directionIsHorizontal (astDirection ast)) config.width config.height
        config.nodeSpacing (assignLayers ast.nodes ast.edges)
        ⟨[], config.width, config.height, LAYOUT_INITIAL_LAYER_OFFSET⟩ id₁ p hp
    · cases hcase₁
    obtain hcase₂ | ⟨layer₂, hlayer₂, j, hj, hid₂, hspread₂⟩ :=
      placeLayers_mem_spread (nodeDimsOf ast.nodes)
        (directionIsHorizontal (astDirection ast)) config.width config.height
        config.nodeSpacing (assignLayers ast.nodes ast.edges)
        ⟨[], config.width, config.height, LAYOUT_INITIAL_LAYER_OFFSET⟩ id₂ q hq
    · cases hcase₂
    have hflat := assignLayers_flatten_nodup ast.nodes ast.edges hids
    have hmem₁ : id₁ ∈ layer₁ := by
      rw [← hid₁, List.getD_eq_getElem layer₁ "" hi]
      exact List.getElem_mem hi
    have hmem₂ : id₂ ∈ layer₂ := by
      rw [← hid₂, List.getD_eq_getElem layer₂ "" hj]
      exact List.getElem_mem hj
    have e₁ : layer₁ = layer :=
      flatten_nodup_layer_unique hflat layer₁ layer hlayer₁ hlayer id₁ hmem₁ h₁
    have e₂ : layer₂ = layer :=
      flatten_nodup_layer_unique hflat layer₂ layer hlayer₂ hlayer id₂ hmem₂ h₂
    rw [e₁] at hi hid₁ hspread₁
    rw [e₂] at hj hid₂ hspread₂
    have hij : i ≠ j := by
      intro hij
      apply hne
      rw [← hid₁, ← hid₂, hij]
    have hnn := nodeDimsOf_axis_nonneg (directionIsHorizontal (astDirection ast)) ast.nodes
    rcases lt_or_gt_of_ne hij with hlt | hgt
    · have hpair := layerOffsetAt_pair_ge (nodeDimsOf ast.nodes)
        (directionIsHorizontal (astDirection ast)) config.nodeSpacing layer hnn i j hlt
      rw [hid₁, hid₂] at hpair
      have hdiff : spreadCoord (directionIsHorizontal (astDirection ast)) q -
          spreadCoord (directionIsHorizontal (astDirection ast)) p =
          layerOffsetAt (nodeDimsOf ast.nodes) (directionIsHorizontal (astDirection ast))
            config.nodeSpacing layer j -
          layerOffsetAt (nodeDimsOf ast.nodes) (directionIsHorizontal (astDirection ast))
            config.nodeSpacing layer i := by
        rw [hspread₁, hspread₂]
        ring
      calc axisNodeDim (directionIsHorizontal (astDirection ast)) (nodeDimsOf ast.nodes id₁) / 2 +
            LAYOUT_MIN_NODE_GAP +
            axisNodeDim (directionIsHorizontal (astDirection ast)) (nodeDimsOf ast.nodes id₂) / 2
          ≤ spreadCoord (directionIsHorizontal (astDirection ast)) q -
              spreadCoord (directionIsHorizontal (astDirection ast)) p := by
            rw [hdiff]; linarith
        _ ≤ |spreadCoord (directionIsHorizontal (astDirection ast)) q -
              spreadCoord (directionIsHorizontal (astDirection ast)) p| := le_abs_self _
    · have hpair := layerOffsetAt_pair_ge (nodeDimsOf ast.nodes)
        (directionIsHorizontal (astDirection ast)) config.nodeSpacing layer hnn j i hgt
      rw [hid₁, hid₂] at hpair
      have hdiff : spreadCoord (directionIsHorizontal (astDirection ast)) p -
          spreadCoord (directionIsHorizontal (astDirection ast)) q =
          layerOffsetAt (nodeDimsOf ast.nodes) (directionIsHorizontal (astDirection ast))
            config.nodeSpacing layer i -
          layerOffsetAt (nodeDimsOf ast.nodes) (directionIsHorizontal (astDirection ast))
            config.nodeSpacing layer j := by
        rw [hspread₁, hspread₂]
        ring
      rw [abs_sub_comm]
      calc axisNodeDim (directionIsHorizontal (astDirection ast)) (nodeDimsOf ast.nodes id₁) / 2 +
            LAYOUT_MIN_NODE_GAP +
            axisNodeDim (directionIsHorizontal (astDirection ast)) (nodeDimsOf ast.nodes id₂) / 2
          ≤ spreadCoord (directionIsHorizontal (astDirection ast)) p -
              spreadCoord (directionIsHorizontal (astDirection ast)) q := by
            rw [hdiff]; linarith
        _ ≤ |spreadCoord (directionIsHorizontal (astDirection ast)) p -
              spreadCoord (directionIsHorizontal (astDirection ast)) q| := le_abs_self _

/-- Witness for C1 at a concrete diagram: `astPairPlain` places `a` and `b`
in the same layer at x = 340 and 460; 80/2 + 40 + 80/2 = 120 ≤ |460 − 340|. -/
theorem noOverlap_same_layer_spacing_witness :
    axisNodeDim (directionIsHorizontal (astDirection astPairPlain))
        (nodeDimsOf astPairPlain.nodes "a") / 2 + LAYOUT_MIN_NODE_GAP +
      axisNodeDim (directionIsHorizontal (astDirection astPairPlain))
        (nodeDimsOf astPairPlain.nodes "b") / 2
    ≤ |spreadCoord (directionIsHorizontal (astDirection astPairPlain)) ⟨460, 80⟩ -
        spreadCoord (directionIsHorizontal (astDirection astPairPlain)) ⟨340, 80⟩| :=
  noOverlap_same_layer_spacing astPairPlain cfgFix (by decide)
    ["a", "b"] (by rw [astPairPlain_layers]; exact List.mem_singleton.mpr rfl)
    "a" "b" (by decide) (by decide) (by decide)
    ⟨340, 80⟩ ⟨460, 80⟩
    (by rw [optimizedCalculateLayout_empty_cache, astPairPlain_layout_eval]; simp)
    (by rw [optimizedCalculateLayout_empty_cache, astPairPlain_layout_eval]; simp)

/-! ## Claim C4 -/

/-- C4 counterexample.  On `astWide` (one 20-character rectangle, width 160)
under a 100-wide requested canvas, the node is placed at x = 50 and the
canvas width is computed as 110, yet the node's bounding extent reaches
x = 50 + 160/2 = 130: the canvas does not contain the bounding extent of
every placed node's geometry. -/
theorem canvas_excludes_wide_node_cex :
    alGet (optimizedCalculateLayout astWide cfgNarrow []).1.layout "a" =
      some ⟨50, 80⟩ ∧
    (optimizedCalculateLayout astWide cfgNarrow []).1.canvasWidth = 110 ∧
    ¬(50 + (calculateNodeDimensions "xxxxxxxxxxxxxxxxxxxx" "rectangle").width / 2
        ≤ (optimizedCalculateLayout astWide cfgNarrow []).1.canvasWidth) := by
  rw [optimizedCalculateLayout_empty_cache, astWide_layout_eval]
  refine ⟨by simp [alGet, List.find?], rfl, ?_⟩
  have hw : (calculateNodeDimensions "xxxxxxxxxxxxxxxxxxxx" "rectangle").width = 160 := by
    simp [calculateNodeDimensions, estimateTextWidth,
      RENDERING_MIN_NODE_WIDTH, RENDERING_NODE_FONT_SIZE, RENDERING_NODE_TEXT_PADDING,
      RENDERING_MIN_NODE_HEIGHT]
    norm_num [show ("xxxxxxxxxxxxxxxxxxxx" : String).length = 20 by decide]
  rw [hw]
  norm_num

/-- C4 as amended.  Canvas bounds never shrink below the requested config
size, and the canvas extends at least the minimum node gap (40) beyond every
placed center horizontally and the canvas padding (60) beyond it vertically;
it need not contain the full bounding extent of wide nodes. -/
theorem canvas_bounds_lower_and_margin (ast : MermaidAST) (config : SvgConfig) :
    config.width ≤ (optimizedCalculateLayout ast config []).1.canvasWidth ∧
    config.height ≤ (optimizedCalculateLayout ast config []).1.canvasHeight ∧
    ∀ id p, (id, p) ∈ (optimizedCalculateLayout ast config []).1.layout →
      p.x + LAYOUT_MIN_NODE_GAP ≤ (optimizedCalculateLayout ast config []).1.canvasWidth ∧
      p.y + LAYOUT_CANVAS_PADDING ≤ (optimizedCalculateLayout ast config []).1.canvasHeight := by
  rw [optimizedCalculateLayout_empty_cache]
  unfold calculateLayoutFresh
  by_cases hempty : ast.nodes = []
  · unfold calculateLayoutCore
    rw [if_pos hempty]
    refine ⟨le_rfl, le_rfl, ?_⟩
    intro id p hmem
    cases hmem
  · rw [calculateLayoutCore_of_ne _ _ _ _ _ _ hempty]
    refine ⟨le_max_left _ _, le_max_left _ _, ?_⟩
    intro id p hmem
    obtain hcase | ⟨hx, hy⟩ := placeLayers_mem_bounds (nodeDimsOf ast.nodes)
      (directionIsHorizontal (astDirection ast)) config.width config.height
      config.nodeSpacing (assignLayers ast.nodes ast.edges)
      ⟨[], config.width, config.height, LAYOUT_INITIAL_LAYER_OFFSET⟩ id p hmem
    · cases hcase
    · exact ⟨le_trans hx (le_max_right _ _), le_trans hy (le_max_right _ _)⟩

/-- Witness for the amended C4: `astPairPlain` with node `a` at (340, 80). -/
theorem canvas_bounds_lower_and_margin_witness :
    cfgFix.width ≤ (optimizedCalculateLayout astPairPlain cfgFix []).1.canvasWidth ∧
    cfgFix.height ≤ (optimizedCalculateLayout astPairPlain cfgFix []).1.canvasHeight ∧
    ((⟨340, 80⟩ : Position).x + LAYOUT_MIN_NODE_GAP ≤
        (optimizedCalculateLayout astPairPlain cfgFix []).1.canvasWidth ∧
      (⟨340, 80⟩ : Position).y + LAYOUT_CANVAS_PADDING ≤
        (optimizedCalculateLayout astPairPlain cfgFix []).1.canvasHeight) :=
  ⟨(canvas_bounds_lower_and_margin astPairPlain cfgFix).1,
   (canvas_bounds_lower_and_margin astPairPlain cfgFix).2.1,
   (canvas_bounds_lower_and_margin astPairPlain cfgFix).2.2 "a" ⟨340, 80⟩
     (by rw [optimizedCalculateLayout_empty_cache, astPairPlain_layout_eval]; simp)⟩

/-! ## Claim C5 -/

/-- C5.  For every diagram with at least one node (cyclic and disconnected
graphs included) and unique node ids, every node id of the mapping appears in
exactly one layer and receives exactly one position entry in the layout. -/
theorem coverage_every_node_once (ast : MermaidAST) (config : SvgConfig)
    (hids : (ast.nodes.map (·.id)).Nodup) (hne : ast.nodes ≠ [])
    (n : MermaidNode) (hn : n ∈ ast.nodes) :
    (assignLayers ast.nodes ast.edges).flatten.count n.id = 1 ∧
    ((optimizedCalculateLayout ast config []).1.layout.map Prod.fst).count n.id = 1 := by
  refine ⟨assignLayers_count_eq_one ast.nodes ast.edges hids n hn, ?_⟩
  rw [optimizedCalculateLayout_empty_cache]
  unfold calculateLayoutFresh
  rw [calculateLayoutCore_of_ne _ _ _ _ _ _ hne]
  obtain ⟨tail, h1, h2⟩ := placeLayers_layout_structure (nodeDimsOf ast.nodes)
    (directionIsHorizontal (astDirection ast)) config.width config.height
    config.nodeSpacing (assignLayers ast.nodes ast.edges)
    ⟨[], config.width, config.height, LAYOUT_INITIAL_LAYER_OFFSET⟩
  dsimp only
  rw [h1]
  simp only [List.nil_append]
  rw [h2]
  exact assignLayers_count_eq_one ast.nodes ast.edges hids n hn

/-- Witness for C5: the cyclic, disconnected diagram `astCycle` (2-cycle
`a ⇄ b` plus isolated `c`): `a` gets exactly one layer slot and one layout
entry. -/
theorem coverage_every_node_once_witness :
    (assignLayers astCycle.nodes astCycle.edges).flatten.count
      (MermaidNode.mk "a" "" "rectangle").id = 1 ∧
    ((optimizedCalculateLayout astCycle cfgFix []).1.layout.map Prod.fst).count
      (MermaidNode.mk "a" "" "rectangle").id = 1 :=
  coverage_every_node_once astCycle cfgFix (by decide) (by decide)
    (MermaidNode.mk "a" "" "rectangle") (by decide)

/-! ## Congruence and cache helper lemmas (claims C2 and C8) -/

theorem calculateLayoutFresh_congr (ast₁ ast₂ : MermaidAST) (cfg₁ cfg₂ : SvgConfig)
    (hn : ast₁.nodes = ast₂.nodes) (he : ast₁.edges = ast₂.edges)
    (hd : astDirection ast₁ = astDirection ast₂)
    (hw : cfg₁.width = cfg₂.width) (hh : cfg₁.height = cfg₂.height)
    (hs : cfg₁.nodeSpacing = cfg₂.nodeSpacing) :
    calculateLayoutFresh ast₁ cfg₁ = calculateLayoutFresh ast₂ cfg₂ := by
  unfold calculateLayoutFresh
  rw [hn, he, hd, hw, hh, hs]

theorem cacheKeyOf_congr (ast₁ ast₂ : MermaidAST) (cfg₁ cfg₂ : SvgConfig)
    (hn : ast₁.nodes = ast₂.nodes) (he : ast₁.edges = ast₂.edges)
    (hd : astDirection ast₁ = astDirection ast₂)
    (hs : cfg₁.nodeSpacing = cfg₂.nodeSpacing) :
    cacheKeyOf ast₁ cfg₁ = cacheKeyOf ast₂ cfg₂ := by
  unfold cacheKeyOf
  rw [hn, he, hd, hs]

theorem alGet_cons_self {κ α : Type} [DecidableEq κ] (k : κ) (v : α)
    (t : List (κ × α)) : alGet ((k, v) :: t) k = some v := by
  simp [alGet, List.find?]

/-! ## Claim C8 -/

/-- C8 counterexample.  Two placement calls on the very same node set, edge
list, nodeSpacing and direction, differing only in the requested canvas
width (800 vs 1000), return different positions and canvas sizes: the
claim's list of inputs does not determine the result. -/
theorem determinism_fails_without_config_cex :
    astPairPlain.nodes = astPairPlain.nodes ∧
    astPairPlain.edges = astPairPlain.edges ∧
    astDirection astPairPlain = astDirection astPairPlain ∧
    cfgFix.nodeSpacing = cfgWide.nodeSpacing ∧
    calculateLayoutFresh astPairPlain cfgFix ≠ calculateLayoutFresh astPairPlain cfgWide := by
  refine ⟨rfl, rfl, rfl, rfl, ?_⟩
  rw [astPairPlain_layout_eval, astPairPlain_layoutWide_eval]
  intro h
  have hcw := congrArg LayoutResult.canvasWidth h
  norm_num at hcw

/-- C8 as amended.  Placement is fully deterministic in the node list (ids,
labels, shapes), the edge list, the direction, and the numeric config
(nodeSpacing and requested width/height): two calls agreeing on those —
even on otherwise different ASTs and configs (diagram-type details, themes) —
return bit-identical positions and canvas sizes. -/
theorem placement_determined_by_content_and_config (ast₁ ast₂ : MermaidAST)
    (cfg₁ cfg₂ : SvgConfig)
    (hn : ast₁.nodes = ast₂.nodes) (he : ast₁.edges = ast₂.edges)
    (hd : astDirection ast₁ = astDirection ast₂)
    (hs : cfg₁.nodeSpacing = cfg₂.nodeSpacing)
    (hw : cfg₁.width = cfg₂.width) (hh : cfg₁.height = cfg₂.height) :
    calculateLayoutFresh ast₁ cfg₁ = calculateLayoutFresh ast₂ cfg₂ :=
  calculateLayoutFresh_congr ast₁ ast₂ cfg₁ cfg₂ hn he hd hw hh hs

/-- Witness for the amended C8: same content under two configs differing only
in theme. -/
theorem placement_determined_witness :
    calculateLayoutFresh astPairPlain cfgFix =
      calculateLayoutFresh astPairPlain ⟨800, 600, 120, "dark"⟩ :=
  placement_determined_by_content_and_config astPairPlain astPairPlain
    cfgFix ⟨800, 600, 120, "dark"⟩ rfl rfl rfl rfl rfl rfl

/-! ## Claim C2 -/

/-- C2 counterexample.  `astPairLabeled` and `astPairPlain` differ only in a
node label, so they share the cache key; after a call on `astPairLabeled`
populates the cache, the call on `astPairPlain` returns the cached layout
(node `a` at x = 338), which differs from its own fresh computation
(node `a` at x = 340): caching changes the result. -/
theorem cache_poisoning_by_labels_cex :
    cacheKeyOf astPairLabeled cfgFix = cacheKeyOf astPairPlain cfgFix ∧
    astPairLabeled ≠ astPairPlain ∧
    (optimizedCalculateLayout astPairPlain cfgFix
        ((optimizedCalculateLayout astPairLabeled cfgFix []).2)).1 ≠
      calculateLayoutFresh astPairPlain cfgFix := by
  refine ⟨rfl, by decide, ?_⟩
  have hcache : (optimizedCalculateLayout astPairLabeled cfgFix []).2 =
      [(cacheKeyOf astPairLabeled cfgFix, calculateLayoutFresh astPairLabeled cfgFix)] := by
    simp [optimizedCalculateLayout, alGet, alSet, astPairLabeled]
  rw [hcache]
  have hkey : cacheKeyOf astPairLabeled cfgFix = cacheKeyOf astPairPlain cfgFix := rfl
  have hhit : (optimizedCalculateLayout astPairPlain cfgFix
      [(cacheKeyOf astPairLabeled cfgFix, calculateLayoutFresh astPairLabeled cfgFix)]).1 =
      calculateLayoutFresh astPairLabeled cfgFix := by
    rw [hkey]
    simp [optimizedCalculateLayout, alGet_cons_self]
  rw [hhit, astPairLabeled_layout_eval, astPairPlain_layout_eval]
  intro h
  have hlay := congrArg LayoutResult.layout h
  simp [Position.mk.injEq] at hlay

/-- C2 as amended.  The cached result matches a fresh computation provided
the populating call used the same node list (ids, labels and shapes), edge
list, direction, and the same config — not merely the same cache key: the
key omits labels, shapes, and the requested width/height, all of which
affect the layout. -/
theorem cache_consistent_same_content (ast ast' : MermaidAST)
    (cfg cfg' : SvgConfig)
    (hn : ast'.nodes = ast.nodes) (he : ast'.edges = ast.edges)
    (hd : astDirection ast' = astDirection ast) (hc : cfg' = cfg) :
    (optimizedCalculateLayout ast cfg ((optimizedCalculateLayout ast' cfg' []).2)).1 =
      calculateLayoutFresh ast cfg := by
  subst hc
  have hkey : cacheKeyOf ast' cfg' = cacheKeyOf ast cfg' :=
    cacheKeyOf_congr ast' ast cfg' cfg' hn he hd rfl
  have hfresh : calculateLayoutFresh ast' cfg' = calculateLayoutFresh ast cfg' :=
    calculateLayoutFresh_congr ast' ast cfg' cfg' hn he hd rfl rfl rfl
  by_cases hempty : ast'.nodes = []
  · have h1 : (optimizedCalculateLayout ast' cfg' []).2 = [] := by
      simp [optimizedCalculateLayout, alGet, hempty]
    rw [h1, optimizedCalculateLayout_empty_cache]
  · have h1 : (optimizedCalculateLayout ast' cfg' []).2 =
        [(cacheKeyOf ast' cfg', calculateLayoutFresh ast' cfg')] := by
      simp [optimizedCalculateLayout, alGet, hempty, alSet]
    rw [h1, hkey, hfresh]
    simp [optimizedCalculateLayout, alGet_cons_self]

/-- Witness for the amended C2: a repeated call on the same diagram returns
the fresh result even though the second call is served from the cache. -/
theorem cache_consistent_same_content_witness :
    (optimizedCalculateLayout astPairPlain cfgFix
        ((optimizedCalculateLayout astPairPlain cfgFix []).2)).1 =
      calculateLayoutFresh astPairPlain cfgFix :=
  cache_consistent_same_content astPairPlain astPairPlain cfgFix cfgFix rfl rfl rfl rfl

/-! ## Claim C7 -/

/-- C7 counterexample.  The empty-label defaults for rectangle and rhombus
are the same 80×40 record: the five shape defaults are not pairwise
distinct. -/
theorem empty_defaults_not_pairwise_distinct_cex :
    calculateNodeDimensions "" "rectangle" = calculateNodeDimensions "" "rhombus" := by
  simp [calculateNodeDimensions]

/-- C7 as amended.  With an empty label, `calculateNodeDimensions` returns a
fixed static table (`emptyLabelDefaults`, free of any font-metric
computation) for every shape; circle (60×60, radius 30), stadium (100×40)
and hexagon (90×40) are pairwise distinct and differ from the others, but
rectangle and rhombus share the same 80×40 default. -/
theorem empty_label_static_defaults :
    (∀ shape : String, calculateNodeDimensions "" shape = emptyLabelDefaults shape) ∧
    emptyLabelDefaults "circle" ≠ emptyLabelDefaults "rectangle" ∧
    emptyLabelDefaults "circle" ≠ emptyLabelDefaults "rhombus" ∧
    emptyLabelDefaults "circle" ≠ emptyLabelDefaults "stadium" ∧
    emptyLabelDefaults "circle" ≠ emptyLabelDefaults "hexagon" ∧
    emptyLabelDefaults "stadium" ≠ emptyLabelDefaults "rectangle" ∧
    emptyLabelDefaults "stadium" ≠ emptyLabelDefaults "rhombus" ∧
    emptyLabelDefaults "stadium" ≠ emptyLabelDefaults "hexagon" ∧
    emptyLabelDefaults "hexagon" ≠ emptyLabelDefaults "rectangle" ∧
    emptyLabelDefaults "hexagon" ≠ emptyLabelDefaults "rhombus" ∧
    emptyLabelDefaults "rectangle" = emptyLabelDefaults "rhombus" := by
  refine ⟨?_, ?_⟩
  · intro shape
    unfold calculateNodeDimensions emptyLabelDefaults
    rw [if_pos rfl]
    split_ifs <;> norm_num [RENDERING_MIN_NODE_WIDTH]
  · simp [emptyLabelDefaults]

/-- Witness for the amended C7 at the circle shape. -/
theorem empty_label_static_defaults_witness :
    calculateNodeDimensions "" "circle" = emptyLabelDefaults "circle" :=
  empty_label_static_defaults.1 "circle"

/-! ## Claim C6 -/

/-- C6 counterexample.  Widths are not monotone across the empty-label
boundary: the empty label gets the static 80-wide rectangle default, while
the one-character label gets the 60-wide minimum. -/
theorem width_decreases_at_empty_boundary_cex :
    ("" : String).length ≤ ("a" : String).length ∧
    ¬((calculateNodeDimensions "" "rectangle").width ≤
        (calculateNodeDimensions "a" "rectangle").width) := by
  refine ⟨by decide, ?_⟩
  have h1 : (calculateNodeDimensions "" "rectangle").width = 80 := by
    simp [calculateNodeDimensions]
  have h2 : (calculateNodeDimensions "a" "rectangle").width = 60 := by
    simp [calculateNodeDimensions, estimateTextWidth, RENDERING_MIN_NODE_WIDTH,
      RENDERING_NODE_FONT_SIZE, RENDERING_NODE_TEXT_PADDING, RENDERING_MIN_NODE_HEIGHT]
    norm_num [show ("a" : String).length = 1 by decide]
  rw [h1, h2]
  norm_num

/-- C6 as amended.  For every fixed shape, the computed width is
non-decreasing in label length over non-empty labels; across the
empty/non-empty boundary it can decrease (see the counterexample). -/
theorem width_monotone_nonempty_labels (shape l₁ l₂ : String)
    (h₁ : l₁ ≠ "") (h₂ : l₂ ≠ "") (hlen : l₁.length ≤ l₂.length) :
    (calculateNodeDimensions l₁ shape).width ≤
      (calculateNodeDimensions l₂ shape).width := by
  have hcast : (l₁.length : ℚ) ≤ (l₂.length : ℚ) := Nat.cast_le.mpr hlen
  have hET : ∀ fs : ℚ, 0 ≤ fs → estimateTextWidth l₁ fs ≤ estimateTextWidth l₂ fs := by
    intro fs hfs
    unfold estimateTextWidth
    have h06 : (0 : ℚ) ≤ 0.6 := by norm_num
    exact mul_le_mul_of_nonneg_right (mul_le_mul_of_nonneg_right hcast hfs) h06
  simp only [calculateNodeDimensions, if_neg h₁, if_neg h₂]
  by_cases hc : shape = "circle"
  · simp only [if_pos hc]
    refine mul_le_mul_of_nonneg_right ?_ (by norm_num)
    refine max_le_max le_rfl ?_
    refine add_le_add_right ?_ 5
    refine div_le_div_of_nonneg_right ?_ (by norm_num)
    refine ratSqrt_mono ?_
    refine add_le_add_right ?_ _
    have hmono : ∀ r₁ r₂ : ℚ, 0 ≤ r₁ → r₁ ≤ r₂ → r₁ * r₁ ≤ r₂ * r₂ := by
      intro r₁ r₂ h0 hle
      nlinarith
    refine hmono _ _ ?_ ?_
    · refine le_trans ?_ (le_max_left _ _)
      norm_num [RENDERING_MIN_NODE_WIDTH]
    · refine max_le_max le_rfl (add_le_add_right ?_ _)
      exact hET _ (by norm_num [RENDERING_NODE_FONT_SIZE])
  · simp only [if_neg hc]
    by_cases hr : shape = "rhombus"
    · simp only [if_pos hr]
      refine max_le_max le_rfl ?_
      refine mul_le_mul_of_nonneg_right ?_ (by norm_num)
      refine max_le_max le_rfl (add_le_add_right ?_ _)
      exact hET _ (by norm_num [RENDERING_NODE_FONT_SIZE])
    · simp only [if_neg hr]
      by_cases hst : shape = "stadium"
      · simp only [if_pos hst]
        refine max_le_max le_rfl ?_
        refine add_le_add_right ?_ _
        refine max_le_max le_rfl (add_le_add_right ?_ _)
        exact hET _ (by norm_num [RENDERING_NODE_FONT_SIZE])
      · simp only [if_neg hst]
        refine max_le_max le_rfl ?_
        refine max_le_max le_rfl (add_le_add_right ?_ _)
        exact hET _ (by norm_num [RENDERING_NODE_FONT_SIZE])

/-- Witness for the amended C6: rectangle widths for labels of length 8 and
12. -/
theorem width_monotone_nonempty_labels_witness :
    (calculateNodeDimensions "abcdefgh" "rectangle").width ≤
      (calculateNodeDimensions "abcdefghijkl" "rectangle").width :=
  width_monotone_nonempty_labels "rectangle" "abcdefgh" "abcdefghijkl"
    (by decide) (by decide) (by decide)

/-! ## Collision-avoidance loop lemmas -/

theorem collisionRetryLoop_length_four (excl : List String)
    (layout : List (String × Position)) (sh lb : List (String × String))
    (vert : Bool) :
    ∀ (fuel retries : ℕ) (p0 p1 p2 p3 : Position),
      (collisionRetryLoop excl layout sh lb vert fuel retries [p0, p1, p2, p3]).length = 4 := by
  intro fuel
  induction fuel with
  | zero => intro retries p0 p1 p2 p3; rfl
  | succ fuel ih =>
    intro retries p0 p1 p2 p3
    simp only [collisionRetryLoop]
    cases hcol : findCollidingNodes (toPathSegments [p0, p1, p2, p3]) excl layout sh lb with
    | nil => rfl
    | cons c0 cs =>
      dsimp only
      split
      · exact ih (retries + 1) _ _ _ _
      · exact ih (retries + 1) _ _ _ _

theorem collisionRetryLoop_endpoints (excl : List String)
    (layout : List (String × Position)) (sh lb : List (String × String))
    (vert : Bool) :
    ∀ (fuel retries : ℕ) (current : List Position),
      (collisionRetryLoop excl layout sh lb vert fuel retries current).head? = current.head? ∧
      (collisionRetryLoop excl layout sh lb vert fuel retries current).getLast? = current.getLast? := by
  intro fuel
  induction fuel with
  | zero => intro retries current; exact ⟨rfl, rfl⟩
  | succ fuel ih =>
    intro retries current
    simp only [collisionRetryLoop]
    cases hcol : findCollidingNodes (toPathSegments current) excl layout sh lb with
    | nil => exact ⟨rfl, rfl⟩
    | cons c0 cs =>
      rcases current with _ | ⟨p0, _ | ⟨p1, _ | ⟨p2, _ | ⟨p3, _ | ⟨p4, rest⟩⟩⟩⟩⟩
      · exact ⟨rfl, rfl⟩
      · exact ⟨rfl, rfl⟩
      · exact ⟨rfl, rfl⟩
      · exact ⟨rfl, rfl⟩
      · dsimp only
        split
        · obtain ⟨hh, hl⟩ := ih (retries + 1)
            [p0, ⟨p1.x + (match alGet layout c0 with
              | some cp => if cp.x > p1.x then -1 else 1
              | none => 1) * (RENDERING_COLLISION_AVOIDANCE_OFFSET * ((retries : ℚ) + 1)), p0.y⟩,
             ⟨p1.x + (match alGet layout c0 with
              | some cp => if cp.x > p1.x then -1 else 1
              | none => 1) * (RENDERING_COLLISION_AVOIDANCE_OFFSET * ((retries : ℚ) + 1)), p3.y⟩, p3]
          constructor
          · rw [hh]
            rfl
          · rw [hl]
            rfl
        · obtain ⟨hh, hl⟩ := ih (retries + 1)
            [p0, ⟨p0.x, p1.y + (match alGet layout c0 with
              | some cp => if cp.y > p1.y then -1 else 1
              | none => 1) * (RENDERING_COLLISION_AVOIDANCE_OFFSET * ((retries : ℚ) + 1))⟩,
             ⟨p3.x, p1.y + (match alGet layout c0 with
              | some cp => if cp.y > p1.y then -1 else 1
              | none => 1) * (RENDERING_COLLISION_AVOIDANCE_OFFSET * ((retries : ℚ) + 1))⟩, p3]
          constructor
          · rw [hh]
            rfl
          · rw [hl]
            rfl
      · exact ⟨rfl, rfl⟩

theorem avoidCollisions_of_four (p0 p1 p2 p3 : Position) (excl : List String)
    (layout : List (String × Position)) (sh lb : List (String × String))
    (vert : Bool) :
    (avoidCollisions [p0, p1, p2, p3] excl layout sh lb vert).length = 4 := by
  unfold avoidCollisions
  cases hcol : findCollidingNodes (toPathSegments [p0, p1, p2, p3]) excl layout sh lb with
  | nil => exact collisionRetryLoop_length_four excl layout sh lb vert _ 0 p0 p1 p2 p3
  | cons c0 cs => exact collisionRetryLoop_length_four excl layout sh lb vert _ 0 p0 p1 p2 p3

theorem avoidCollisions_two_of_collision (p0 p1 : Position) (excl : List String)
    (layout : List (String × Position)) (sh lb : List (String × String))
    (vert : Bool) (c0 : String) (cs : List String)
    (hcol : findCollidingNodes (toPathSegments [p0, p1]) excl layout sh lb = c0 :: cs) :
    (avoidCollisions [p0, p1] excl layout sh lb vert).length = 4 := by
  unfold avoidCollisions
  rw [hcol]
  dsimp only
  split
  · apply collisionRetryLoop_length_four
  · apply collisionRetryLoop_length_four

theorem findCollidingNodes_ne_nil (segs : List (Position × Position))
    (excl : List String) (layout : List (String × Position))
    (sh lb : List (String × String)) (nodeId : String) (pos : Position)
    (hmem : (nodeId, pos) ∈ layout) (hexcl : nodeId ∉ excl)
    (hint : segs.any (fun seg => lineIntersectsNode seg.1 seg.2 pos
      (jsStringOr (alGet sh nodeId) "rectangle")
      (jsStringOr (alGet lb nodeId) "")) = true) :
    findCollidingNodes segs excl layout sh lb ≠ [] := by
  unfold findCollidingNodes
  intro hnil
  rw [List.map_eq_nil_iff] at hnil
  have hpmem : (nodeId, pos) ∈ layout.filter (fun np =>
      !(decide (np.1 ∈ excl)) &&
      segs.any (fun seg =>
        lineIntersectsNode seg.1 seg.2 np.2
          (jsStringOr (alGet sh np.1) "rectangle")
          (jsStringOr (alGet lb np.1) ""))) := by
    refine List.mem_filter.mpr ⟨hmem, ?_⟩
    rw [Bool.and_eq_true]
    exact ⟨by simpa using hexcl, hint⟩
  rw [hnil] at hpmem
  cases hpmem

/-! ## Claim C3 -/

/-- C3 counterexample.  A same-layer edge (`a` and `b` side by side, third
node `c` on the direct line between them) whose plain two-point port-to-port
path intersects `c`'s padding-expanded geometry: `improvedRouteEdgePath`
returns the plain two-point path anyway, because same-layer edges bypass
collision avoidance entirely. -/
theorem sameLayer_bypasses_collision_cex :
    lineIntersectsNode
        (edgePorts ⟨0, 0⟩ ⟨200, 0⟩ edgeAB shapesABC labelsABC "TD").exitPort
        (edgePorts ⟨0, 0⟩ ⟨200, 0⟩ edgeAB shapesABC labelsABC "TD").entryPort
        ⟨100, 0⟩ (jsStringOr (alGet shapesABC "c") "rectangle")
        (jsStringOr (alGet labelsABC "c") "") = true ∧
    ("c", (⟨100, 0⟩ : Position)) ∈ layoutRow ∧
    "c" ≠ edgeAB.fromId ∧ "c" ≠ edgeAB.toId ∧
    (improvedRouteEdgePath ⟨0, 0⟩ ⟨200, 0⟩ edgeAB layoutRow shapesABC labelsABC "TD").length
      = 2 := by
  refine ⟨?_, by simp [layoutRow], by decide, by decide, ?_⟩
  · have hports : edgePorts ⟨0, 0⟩ ⟨200, 0⟩ edgeAB shapesABC labelsABC "TD" =
        ⟨⟨42, 0⟩, ⟨158, 0⟩⟩ := by
      simp [edgePorts, calculatePorts, edgeIsVertical, edgeIsReversed, edgeSameLayer,
        edgeAB, shapesABC, labelsABC, jsStringOr, alGet, List.find?,
        calculateNodeDimensions, RENDERING_MIN_NODE_WIDTH, RENDERING_PORT_OFFSET]
      norm_num
    rw [hports]
    simp [lineIntersectsNode, lineSegmentIntersectsRect, lineIntersectsLine,
      jsStringOr, alGet, List.find?, calculateNodeDimensions,
      RENDERING_COLLISION_PADDING, RENDERING_MIN_NODE_WIDTH]
    norm_num
  · simp only [improvedRouteEdgePath]
    have hsame : edgeSameLayer ⟨0, 0⟩ ⟨200, 0⟩ "TD" = true := by
      simp [edgeSameLayer, edgeIsVertical]
    rw [hsame]
    rfl

/-- C3 as amended.  For every cross-layer edge (same-layer edges bypass
collision handling) whose plain two-point port-to-port path intersects the
padding-expanded geometry of a node in the layout other than the edge's own
endpoints, `improvedRouteEdgePath` does not return the plain two-point path:
it returns at least 4 waypoints. -/
theorem crossLayer_collision_promotes_path (fromPos toPos : Position)
    (edge : MermaidEdge) (layout : List (String × Position))
    (nodeShapes nodeLabels : List (String × String)) (direction : String)
    (hnotSame : edgeSameLayer fromPos toPos direction = false)
    (nodeId : String) (pos : Position)
    (hmem : (nodeId, pos) ∈ layout)
    (hne1 : nodeId ≠ edge.fromId) (hne2 : nodeId ≠ edge.toId)
    (hint : lineIntersectsNode
        (edgePorts fromPos toPos edge nodeShapes nodeLabels direction).exitPort
        (edgePorts fromPos toPos edge nodeShapes nodeLabels direction).entryPort
        pos (jsStringOr (alGet nodeShapes nodeId) "rectangle")
        (jsStringOr (alGet nodeLabels nodeId) "") = true) :
    4 ≤ (improvedRouteEdgePath fromPos toPos edge layout
          nodeShapes nodeLabels direction).length := by
  unfold improvedRouteEdgePath
  rw [hnotSame]
  simp only [Bool.false_eq_true, if_false]
  set E := (edgePorts fromPos toPos edge nodeShapes nodeLabels direction).exitPort with hE
  set X := (edgePorts fromPos toPos edge nodeShapes nodeLabels direction).entryPort with hX
  unfold generateOrthogonalPath
  have hexcl : nodeId ∉ [edge.fromId, edge.toId] := by
    intro hmem'
    rcases List.mem_cons.mp hmem' with h | h
    · exact hne1 h
    · rcases List.mem_cons.mp h with h' | h'
      · exact hne2 h'
      · cases h'
  have hany : (toPathSegments [E, X]).any (fun seg =>
      lineIntersectsNode seg.1 seg.2 pos
        (jsStringOr (alGet nodeShapes nodeId) "rectangle")
        (jsStringOr (alGet nodeLabels nodeId) "")) = true := by
    rw [show toPathSegments [E, X] = [(E, X)] from rfl]
    simp only [List.any_cons, List.any_nil]
    rw [hint]
    rfl
  have hne := findCollidingNodes_ne_nil (toPathSegments [E, X])
    [edge.fromId, edge.toId] layout nodeShapes nodeLabels nodeId pos hmem hexcl hany
  obtain ⟨c0, cs, hcol⟩ := List.exists_cons_of_ne_nil hne
  split
  · split
    · rw [avoidCollisions_two_of_collision E X _ layout nodeShapes nodeLabels _ c0 cs hcol]
    · rw [avoidCollisions_of_four]
  · split
    · rw [avoidCollisions_two_of_collision E X _ layout nodeShapes nodeLabels _ c0 cs hcol]
    · rw [avoidCollisions_of_four]

/-- Witness for the amended C3: the column arrangement `layoutCol` with `c`
sitting on the straight line of the cross-layer edge `a → b`. -/
theorem crossLayer_collision_promotes_path_witness :
    4 ≤ (improvedRouteEdgePath ⟨400, 80⟩ ⟨400, 280⟩ edgeAB layoutCol
          shapesABC labelsABC "TD").length :=
  crossLayer_collision_promotes_path ⟨400, 80⟩ ⟨400, 280⟩ edgeAB layoutCol
    shapesABC labelsABC "TD"
    (by simp [edgeSameLayer, edgeIsVertical]; norm_num)
    "c" ⟨400, 180⟩ (by simp [layoutCol]) (by decide) (by decide)
    (by
      have hports : edgePorts ⟨400, 80⟩ ⟨400, 280⟩ edgeAB shapesABC labelsABC "TD" =
          ⟨⟨400, 102⟩, ⟨400, 258⟩⟩ := by
        simp [edgePorts, calculatePorts, edgeIsVertical, edgeIsReversed, edgeSameLayer,
          edgeAB, shapesABC, labelsABC, jsStringOr, alGet, List.find?,
          calculateNodeDimensions, RENDERING_MIN_NODE_WIDTH, RENDERING_PORT_OFFSET]
        norm_num
      rw [hports]
      simp [lineIntersectsNode, lineSegmentIntersectsRect, lineIntersectsLine,
        jsStringOr, alGet, List.find?, calculateNodeDimensions,
        RENDERING_COLLISION_PADDING, RENDERING_MIN_NODE_WIDTH]
      norm_num)

/-! ## Claim C10 -/

set_option linter.unusedVariables false in
/-- C10.  For every input path of 2 or 4 waypoints and every layout,
`avoidCollisions` returns a path with the same first and last waypoint as the
input: detour promotion and widening retries relocate only interior
waypoints. -/
theorem avoidCollisions_preserves_endpoints (path : List Position)
    (excl : List String) (layout : List (String × Position))
    (sh lb : List (String × String)) (vert : Bool)
    (hlen : path.length = 2 ∨ path.length = 4) :
    (avoidCollisions path excl layout sh lb vert).head? = path.head? ∧
    (avoidCollisions path excl layout sh lb vert).getLast? = path.getLast? := by
  clear hlen  -- the endpoint preservation holds for paths of any length
  unfold avoidCollisions
  cases hcol : findCollidingNodes (toPathSegments path) excl layout sh lb with
  | nil =>
    rcases path with _ | ⟨p0, _ | ⟨p1, rest⟩⟩
    · exact collisionRetryLoop_endpoints excl layout sh lb vert _ 0 _
    · exact collisionRetryLoop_endpoints excl layout sh lb vert _ 0 _
    · cases rest with
      | nil => exact collisionRetryLoop_endpoints excl layout sh lb vert _ 0 _
      | cons p2 rest' => exact collisionRetryLoop_endpoints excl layout sh lb vert _ 0 _
  | cons c0 cs =>
    rcases path with _ | ⟨p0, _ | ⟨p1, rest⟩⟩
    · exact collisionRetryLoop_endpoints excl layout sh lb vert _ 0 _
    · exact collisionRetryLoop_endpoints excl layout sh lb vert _ 0 _
    · cases rest with
      | nil =>
        dsimp only
        split
        · obtain ⟨hh, hl⟩ := collisionRetryLoop_endpoints excl layout sh lb vert
            RENDERING_MAX_COLLISION_RETRIES 0
            [p0, ⟨p0.x + (match alGet layout c0 with
              | some cp => if cp.x > p0.x then -1 else 1
              | none => 1) * RENDERING_COLLISION_AVOIDANCE_OFFSET, p0.y⟩,
             ⟨p0.x + (match alGet layout c0 with
              | some cp => if cp.x > p0.x then -1 else 1
              | none => 1) * RENDERING_COLLISION_AVOIDANCE_OFFSET, p1.y⟩, p1]
          rw [hh, hl]
          exact ⟨rfl, rfl⟩
        · obtain ⟨hh, hl⟩ := collisionRetryLoop_endpoints excl layout sh lb vert
            RENDERING_MAX_COLLISION_RETRIES 0
            [p0, ⟨p0.x, p0.y + (match alGet layout c0 with
              | some cp => if cp.y > p0.y then -1 else 1
              | none => 1) * RENDERING_COLLISION_AVOIDANCE_OFFSET⟩,
             ⟨p1.x, p0.y + (match alGet layout c0 with
              | some cp => if cp.y > p0.y then -1 else 1
              | none => 1) * RENDERING_COLLISION_AVOIDANCE_OFFSET⟩, p1]
          rw [hh, hl]
          exact ⟨rfl, rfl⟩
      | cons p2 rest' => exact collisionRetryLoop_endpoints excl layout sh lb vert _ 0 _

/-- Witness for C10 at a concrete two-point path. -/
theorem avoidCollisions_preserves_endpoints_witness :
    (avoidCollisions [⟨0, 0⟩, ⟨10, 0⟩] [] [] [] [] true).head? =
      ([(⟨0, 0⟩ : Position), ⟨10, 0⟩]).head? ∧
    (avoidCollisions [⟨0, 0⟩, ⟨10, 0⟩] [] [] [] [] true).getLast? =
      ([(⟨0, 0⟩ : Position), ⟨10, 0⟩]).getLast? :=
  avoidCollisions_preserves_endpoints [⟨0, 0⟩, ⟨10, 0⟩] [] [] [] [] true (Or.inl rfl)

/-! ## Claim C9 -/

/-- Routing evaluation for the dangling-edge diagram: the edge to the
phantom id `b` is routed port-to-port. -/
theorem astDangling_route_eval :
    improvedRouteEdgePath ⟨400, 80⟩ ⟨400, 280⟩ ⟨"a", "b", none, "arrow"⟩
      [("a", ⟨400, 80⟩), ("b", ⟨400, 280⟩)] [("a", "rectangle")] [("a", "")] "TD" =
      [⟨400, 102⟩, ⟨400, 258⟩] := by
  have hsame : edgeSameLayer ⟨400, 80⟩ ⟨400, 280⟩ "TD" = false := by
    simp [edgeSameLayer, edgeIsVertical]
    norm_num
  have hports : edgePorts ⟨400, 80⟩ ⟨400, 280⟩ ⟨"a", "b", none, "arrow"⟩
      [("a", "rectangle")] [("a", "")] "TD" = ⟨⟨400, 102⟩, ⟨400, 258⟩⟩ := by
    simp [edgePorts, calculatePorts, edgeIsVertical, edgeIsReversed, hsame,
      jsStringOr, alGet, List.find?, calculateNodeDimensions,
      RENDERING_MIN_NODE_WIDTH, RENDERING_PORT_OFFSET]
    norm_num
  have hcols : findCollidingNodes (toPathSegments [⟨400, 102⟩, ⟨400, 258⟩])
      ["a", "b"] [("a", ⟨400, 80⟩), ("b", ⟨400, 280⟩)] [("a", "rectangle")]
      [("a", "")] = [] := by
    simp [findCollidingNodes, toPathSegments]
  have hpath : generateOrthogonalPath ⟨400, 102⟩ ⟨400, 258⟩ (edgeIsVertical "TD") =
      [⟨400, 102⟩, ⟨400, 258⟩] := by
    simp [generateOrthogonalPath, edgeIsVertical]
  have havoid : avoidCollisions [⟨400, 102⟩, ⟨400, 258⟩] ["a", "b"]
      [("a", ⟨400, 80⟩), ("b", ⟨400, 280⟩)] [("a", "rectangle")] [("a", "")]
      (edgeIsVertical "TD") = [⟨400, 102⟩, ⟨400, 258⟩] := by
    unfold avoidCollisions
    rw [hcols]
    simp [collisionRetryLoop, hcols, RENDERING_MAX_COLLISION_RETRIES]
  unfold improvedRouteEdgePath
  rw [hsame, hports]
  simp only [Bool.false_eq_true, if_false]
  rw [hpath, havoid]

/-- C9 counterexample.  `astDangling` has a single node `a` and the edge
`a → b` whose target id is absent from the node mapping; rendering succeeds,
but the BFS gives `b` a phantom position and a path IS emitted for the
edge — it is not skipped. -/
theorem phantom_node_edge_rendered_cex :
    "b" ∉ astDangling.nodes.map (·.id) ∧
    (svgRenderer astDangling cfgFix []).1 =
      RenderResult.ok (svgRendererCore astDangling cfgFix []).1 ∧
    (svgRendererCore astDangling cfgFix []).1.edgeElements =
      [(⟨"a", "b", none, "arrow"⟩, [⟨400, 102⟩, ⟨400, 258⟩])] := by
  refine ⟨by decide, rfl, ?_⟩
  have hlr : (optimizedCalculateLayout astDangling cfgFix []).1 =
      ⟨[("a", ⟨400, 80⟩), ("b", ⟨400, 280⟩)], 800, 600⟩ := by
    rw [optimizedCalculateLayout_empty_cache, astDangling_layout_eval]
  simp only [svgRendererCore]
  rw [hlr]
  simp [astDangling, astDirection, alSet, alGet, List.find?, astDangling_route_eval]

/-- C9 as amended.  `svgRenderer` always returns `Ok`, and an edge is
skipped (no waypoints emitted) exactly when one of its endpoints has no
position in the computed layout — note an id absent from the node mapping
can still receive a phantom position when it is a successor of a mapped
node (see the counterexample), in which case its edge is routed. -/
theorem edge_skipped_without_positions (ast : MermaidAST) (config : SvgConfig)
    (cache : LayoutCache) (e : MermaidEdge) (pts : List Position)
    (hmiss : alGet (optimizedCalculateLayout ast config cache).1.layout e.fromId = none ∨
             alGet (optimizedCalculateLayout ast config cache).1.layout e.toId = none) :
    (svgRenderer ast config cache).1 =
      RenderResult.ok (svgRendererCore ast config cache).1 ∧
    (e, pts) ∉ (svgRendererCore ast config cache).1.edgeElements := by
  refine ⟨rfl, ?_⟩
  intro hmem
  simp only [svgRendererCore] at hmem
  rw [List.mem_filterMap] at hmem
  obtain ⟨a, ha, hfa⟩ := hmem
  cases hfrom : alGet (optimizedCalculateLayout ast config cache).1.layout a.fromId with
  | none => rw [hfrom] at hfa; cases hfa
  | some fp =>
    cases hto : alGet (optimizedCalculateLayout ast config cache).1.layout a.toId with
    | none => rw [hfrom, hto] at hfa; cases hfa
    | some tp =>
      rw [hfrom, hto] at hfa
      simp only [Option.some.injEq, Prod.mk.injEq] at hfa
      obtain ⟨hae, -⟩ := hfa
      subst hae
      rcases hmiss with hmiss | hmiss
      · rw [hmiss] at hfrom; cases hfrom
      · rw [hmiss] at hto; cases hto

/-- Witness for the amended C9: in `astGhostSource` the source id `ghost`
never receives a position, so the edge `ghost → a` is skipped while
rendering still succeeds. -/
theorem edge_skipped_without_positions_witness :
    (svgRenderer astGhostSource cfgFix []).1 =
      RenderResult.ok (svgRendererCore astGhostSource cfgFix []).1 ∧
    (⟨"ghost", "a", none, "arrow"⟩, ([] : List Position)) ∉
      (svgRendererCore astGhostSource cfgFix []).1.edgeElements :=
  edge_skipped_without_positions astGhostSource cfgFix [] ⟨"ghost", "a", none, "arrow"⟩ []
    (Or.inl (by
      rw [optimizedCalculateLayout_empty_cache, astGhostSource_layout_eval]
      simp [alGet, List.find?]))

end Rendermaid
